import Mathlib

/-!
Verification development for the scope-analysis core of pycompactor
(src/python_minifier/rename/).

The definitions below are shallow embeddings, translated from the Python
source files:

* `namespace.py`   → `Namespace` (kind plays the role of the subclass tag;
  `tainted_attr` models the plain `tainted` attribute assigned by
  `resolve_names.py`, while `tainted_underscore` models the `_tainted`
  field set by `Namespace.taint()` and read by the `is_tainted` property).
* `util.py`        → `get_global_namespace`, `get_nonlocal_namespace`,
  `arg_rename_in_place`.
* `resolve_names.py` → `get_binding`.
* `create_namespaces.py` → `create_child_namespaces` and friends.
* `suite_transformer.py` → `visit_Constant_dispatch`.

A namespace together with its chain of parents is modelled by `NsChain`
(the parent link of `Namespace.parent_namespace`), and the in-place
mutations that `get_binding` performs on the module namespace are modelled
by returning the updated module `Namespace`.  Python object identity of a
returned binding is modelled by also returning the chain of the namespace
the binding belongs to.
-/

set_option linter.unusedVariables false
set_option linter.unreachableTactic false
set_option linter.unusedTactic false

namespace PyCompactor

/-- The subclass tag of a namespace: `ModuleNamespace`, `FunctionNamespace`,
`ClassNamespace` or `AnnotationNamespace` in `namespace.py`. -/
inductive NSKind where
  | module
  | function
  | class_
  | annot
deriving DecidableEq, Repr

/-- Modelled from the spec: `binding.py` (classes `NameBinding` and
`BuiltinBinding`) is not under `src/`; per §3 of the spec a binding has a
name text and a rename-allowed flag that starts true and can only be turned
off.  `is_builtin` is the `BuiltinBinding` subclass tag. -/
structure NameBinding where
  name : String
  is_builtin : Bool := false
  allow_rename : Bool := true
deriving DecidableEq, Repr

/-- `NameBinding.disallow_rename()` turns the rename-allowed flag off. -/
def NameBinding.disallow_rename (b : NameBinding) : NameBinding :=
  { b with allow_rename := false }

/-- The data carried by one namespace object (`Namespace.__init__`).
Name sets are modelled as lists; `tainted_attr` models the plain attribute
`tainted` that `resolve_names.py` assigns, `tainted_underscore` models the
`_tainted` field of `namespace.py`. -/
structure Namespace where
  kind : NSKind
  bindings : List NameBinding := []
  global_names : List String := []
  nonlocal_names : List String := []
  tainted_attr : Bool := false
  tainted_underscore : Bool := false
deriving DecidableEq, Repr

/-- `Namespace.taint()`: sets the `_tainted` field. -/
def Namespace.taint (s : Namespace) : Namespace :=
  { s with tainted_underscore := true }

/-- The `is_tainted` property: reads the `_tainted` field. -/
def Namespace.is_tainted (s : Namespace) : Bool :=
  s.tainted_underscore

/-- A namespace with its chain of `parent_namespace` links up to the module
namespace (the root, whose `parent_namespace` is `None`). -/
inductive NsChain where
  | module (m : Namespace)
  | child (scope : Namespace) (parent : NsChain)
deriving DecidableEq, Repr

/-- The namespace object at the head of the chain. -/
def NsChain.top : NsChain → Namespace
  | .module m => m
  | .child s _ => s

/-- Length of the parent chain (used as a termination measure). -/
def NsChain.depth : NsChain → Nat
  | .module _ => 1
  | .child _ p => p.depth + 1

theorem NsChain.depth_pos (ns : NsChain) : 0 < ns.depth := by
  cases ns <;> simp [NsChain.depth]

/-- `isinstance(namespace, ClassNamespace)`. -/
def isClassNs : NsChain → Bool
  | .module _ => false
  | .child s _ => s.kind == .class_

/-- `isinstance(namespace, ModuleNamespace)`. -/
def isModuleNs : NsChain → Bool
  | .module _ => true
  | .child _ _ => false

/-- `util.get_global_namespace`: walk the parent chain to the module
namespace. -/
def get_global_namespace : NsChain → NsChain
  | .module m => .module m
  | .child _ p => get_global_namespace p

/-- The module namespace object at the root of a chain. -/
def NsChain.moduleData : NsChain → Namespace
  | .module m => m
  | .child _ p => p.moduleData

theorem get_global_namespace_eq_moduleData (ns : NsChain) :
    get_global_namespace ns = .module ns.moduleData := by
  induction ns with
  | module m => rfl
  | child s p ih => simpa [get_global_namespace, NsChain.moduleData] using ih

theorem depth_get_global_namespace (ns : NsChain) :
    (get_global_namespace ns).depth = 1 := by
  rw [get_global_namespace_eq_moduleData]; rfl

/-- `util.get_nonlocal_namespace`: the closest parent namespace that is not
a class namespace.  For the module namespace `parent_namespace` is `None`
(modelled by `none`). -/
def get_nonlocal_namespace : NsChain → Option NsChain
  | .module _ => none
  | .child _ p => if isClassNs p then get_nonlocal_namespace p else some p

/-- The chain obtained by stripping consecutive class namespaces off the
head; used to characterise `get_nonlocal_namespace`. -/
def stripClasses : NsChain → NsChain
  | .module m => .module m
  | .child s p => if s.kind == .class_ then stripClasses p else .child s p

theorem get_nonlocal_namespace_child (s : Namespace) (p : NsChain) :
    get_nonlocal_namespace (.child s p) = some (stripClasses p) := by
  induction p with
  | module m => rfl
  | child s' p' ih =>
      by_cases h : s'.kind = NSKind.class_
      · simp [get_nonlocal_namespace, stripClasses, isClassNs, h] at ih ⊢
        exact ih
      · simp [get_nonlocal_namespace, stripClasses, isClassNs, h]

theorem stripClasses_not_class (p : NsChain) : isClassNs (stripClasses p) = false := by
  induction p with
  | module m => rfl
  | child s' p' ih =>
      by_cases h : s'.kind = NSKind.class_
      · simpa [stripClasses, h] using ih
      · simp [stripClasses, isClassNs, h]

theorem depth_stripClasses_le (p : NsChain) : (stripClasses p).depth ≤ p.depth := by
  induction p with
  | module m => exact Nat.le_refl _
  | child s' p' ih =>
      by_cases h : s'.kind = NSKind.class_
      · simp only [stripClasses, h]
        exact Nat.le_trans (by simpa [h] using ih) (Nat.le_succ _)
      · simp [stripClasses, h]

theorem get_nonlocal_namespace_depth_lt (ns q : NsChain)
    (h : get_nonlocal_namespace ns = some q) : q.depth < ns.depth := by
  cases ns with
  | module m => simp [get_nonlocal_namespace] at h
  | child s p =>
      rw [get_nonlocal_namespace_child] at h
      cases h
      exact Nat.lt_of_le_of_lt (depth_stripClasses_le p) (Nat.lt_succ_self _)

/-- Find a binding by name in a namespace's binding list: the
`for binding in namespace.bindings: if binding.name == name` scan in
`get_binding`. -/
def findBinding (name : String) : List NameBinding → Option NameBinding
  | [] => none
  | b :: rest => if b.name = name then some b else findBinding name rest

/-- Modelled as a fixed, explicit list: the source consults `dir(builtins)`
of the host CPython interpreter (`util.py` imports the `builtins` module). -/
def builtin_names : List String :=
  ["abs", "aiter", "all", "anext", "any", "ascii", "bin", "bool", "breakpoint",
   "bytearray", "bytes", "callable", "chr", "classmethod", "compile", "complex",
   "delattr", "dict", "dir", "divmod", "enumerate", "eval", "exec", "filter",
   "float", "format", "frozenset", "getattr", "globals", "hasattr", "hash",
   "help", "hex", "id", "input", "int", "isinstance", "issubclass", "iter",
   "len", "list", "locals", "map", "max", "memoryview", "min", "next", "object",
   "oct", "open", "ord", "pow", "print", "property", "range", "repr",
   "reversed", "round", "set", "setattr", "slice", "sorted", "staticmethod",
   "str", "sum", "super", "tuple", "type", "vars", "zip",
   "ArithmeticError", "AssertionError", "AttributeError", "BaseException",
   "Ellipsis", "Exception", "False", "IndexError", "KeyError", "LookupError",
   "None", "NotImplemented", "OSError", "RuntimeError", "StopIteration",
   "True", "TypeError", "ValueError", "ZeroDivisionError"]

/-- The small fixed set of scope-introspecting builtins singled out in
`get_binding`. -/
def scope_introspecting_builtins : List String :=
  ["exec", "eval", "locals", "globals", "vars"]

/-- The result of `get_binding`: the binding that the Python function
returns, together with the namespace chain the binding belongs to (modelling
object identity) and the module namespace after the call (modelling the
in-place mutations that `get_binding` performs on the module namespace). -/
structure GBResult where
  scope : NsChain
  binding : NameBinding
  moduleAfter : Namespace
deriving DecidableEq, Repr

/-- `resolve_names.get_binding`, translated clause by clause.  The
`not isinstance(namespace, ModuleNamespace)` conjuncts of the first two
clauses are realised by the match on the chain: in the `.module` case both
clauses are skipped.  `none` models the `AttributeError` Python would raise
if `get_nonlocal_namespace` returned `None` (unreachable for well-formed
calls, since it is only consulted for non-module namespaces). -/
def get_binding (name : String) (ns : NsChain) : Option GBResult :=
  match ns with
  | .child s p =>
    if name ∈ s.global_names then
      get_binding name (get_global_namespace (.child s p))
    else if name ∈ s.nonlocal_names then
      match h : get_nonlocal_namespace (NsChain.child s p) with
      | some q => get_binding name q
      | none => none
    else
      match findBinding name s.bindings with
      | some b => some ⟨.child s p, b, NsChain.moduleData (.child s p)⟩
      | none =>
        match h : get_nonlocal_namespace (NsChain.child s p) with
        | some q => get_binding name q
        | none => none
  | .module m =>
    match findBinding name m.bindings with
    | some b => some ⟨.module m, b, m⟩
    | none =>
      if name ∈ builtin_names then
        let m1 := if name ∈ scope_introspecting_builtins then
           { m with tainted_attr := true } else m
        let b : NameBinding := { name := name, is_builtin := true }
        let m2 := { m1 with bindings := m1.bindings ++ [b] }
        some ⟨.module m2, b, m2⟩
      else
        let b := NameBinding.disallow_rename { name := name }
        let m2 := { m with bindings := m.bindings ++ [b] }
        some ⟨.module m2, b, m2⟩
termination_by ns.depth
decreasing_by
  · rw [depth_get_global_namespace]
    have := NsChain.depth_pos p
    simp [NsChain.depth]; omega
  · have := get_nonlocal_namespace_depth_lt _ _ h
    exact this
  · have := get_nonlocal_namespace_depth_lt _ _ h
    exact this

/-! Unfolding lemmas for `get_binding`, one per clause of the source. -/

theorem get_binding_global_defer (name : String) (s : Namespace) (p : NsChain)
    (hg : name ∈ s.global_names) :
    get_binding name (.child s p) = get_binding name (.module p.moduleData) := by
  rw [get_binding]
  simp [hg, get_global_namespace_eq_moduleData, NsChain.moduleData]

theorem get_binding_nonlocal_defer (name : String) (s : Namespace) (p : NsChain)
    (hg : name ∉ s.global_names) (hn : name ∈ s.nonlocal_names) :
    get_binding name (.child s p) = get_binding name (stripClasses p) := by
  rw [get_binding]
  rw [if_neg hg, if_pos hn]
  split
  · rename_i q hq
    rw [get_nonlocal_namespace_child] at hq
    cases hq
    rfl
  · rename_i hq
    rw [get_nonlocal_namespace_child] at hq
    cases hq

theorem get_binding_local_found (name : String) (s : Namespace) (p : NsChain)
    (b : NameBinding)
    (hg : name ∉ s.global_names) (hn : name ∉ s.nonlocal_names)
    (hb : findBinding name s.bindings = some b) :
    get_binding name (.child s p) = some ⟨.child s p, b, p.moduleData⟩ := by
  rw [get_binding]
  simp [hg, hn, hb, NsChain.moduleData]

theorem get_binding_local_missing (name : String) (s : Namespace) (p : NsChain)
    (hg : name ∉ s.global_names) (hn : name ∉ s.nonlocal_names)
    (hb : findBinding name s.bindings = none) :
    get_binding name (.child s p) = get_binding name (stripClasses p) := by
  rw [get_binding]
  rw [if_neg hg, if_neg hn]
  simp only [hb]
  split
  · rename_i q hq
    rw [get_nonlocal_namespace_child] at hq
    cases hq
    rfl
  · rename_i hq
    rw [get_nonlocal_namespace_child] at hq
    cases hq

theorem get_binding_module_found (name : String) (m : Namespace) (b : NameBinding)
    (hb : findBinding name m.bindings = some b) :
    get_binding name (.module m) = some ⟨.module m, b, m⟩ := by
  rw [get_binding]
  simp [hb]

theorem get_binding_module_builtin (name : String) (m : Namespace)
    (hb : findBinding name m.bindings = none) (hbi : name ∈ builtin_names)
    (hsi : name ∉ scope_introspecting_builtins) :
    get_binding name (.module m) =
      some ⟨.module { m with bindings := m.bindings ++ [⟨name, true, true⟩] },
            ⟨name, true, true⟩,
            { m with bindings := m.bindings ++ [⟨name, true, true⟩] }⟩ := by
  rw [get_binding]
  simp [hb, hbi, hsi]

theorem get_binding_module_builtin_introspecting (name : String) (m : Namespace)
    (hb : findBinding name m.bindings = none) (hbi : name ∈ builtin_names)
    (hsi : name ∈ scope_introspecting_builtins) :
    get_binding name (.module m) =
      some ⟨.module { m with tainted_attr := true,
                             bindings := m.bindings ++ [⟨name, true, true⟩] },
            ⟨name, true, true⟩,
            { m with tainted_attr := true,
                     bindings := m.bindings ++ [⟨name, true, true⟩] }⟩ := by
  rw [get_binding]
  simp [hb, hbi, hsi]

theorem get_binding_module_placeholder (name : String) (m : Namespace)
    (hb : findBinding name m.bindings = none) (hbi : name ∉ builtin_names) :
    get_binding name (.module m) =
      some ⟨.module { m with bindings := m.bindings ++ [⟨name, false, false⟩] },
            ⟨name, false, false⟩,
            { m with bindings := m.bindings ++ [⟨name, false, false⟩] }⟩ := by
  rw [get_binding]
  simp [hb, hbi, NameBinding.disallow_rename]

theorem findBinding_append_of_none (name : String) (l : List NameBinding)
    (b : NameBinding) (h : findBinding name l = none) :
    findBinding name (l ++ [b]) = if b.name = name then some b else none := by
  induction l with
  | nil => rfl
  | cons x rest ih =>
      rw [findBinding] at h
      by_cases hx : x.name = name
      · simp [hx] at h
      · simp only [hx, if_false] at h
        simp [findBinding, hx, ih h]

/-! ## Claims about the resolver (`get_binding`) -/

/-- C1: a name occurrence whose name is in its owning (non-module) scope's
declared-nonlocal set resolves in the nearest enclosing scope that is not a
class scope (class scopes are transparent to the lookup); in particular, a
name declared nonlocal inside a method nested in a class nested in a
function resolves to the enclosing function's binding, never to a
same-named class-body binding. -/
theorem nonlocal_skips_class_scopes :
    (∀ (name : String) (s : Namespace) (p : NsChain),
        name ∉ s.global_names → name ∈ s.nonlocal_names →
        get_nonlocal_namespace (.child s p) = some (stripClasses p) ∧
        isClassNs (stripClasses p) = false ∧
        get_binding name (.child s p) = get_binding name (stripClasses p)) ∧
    (∀ (name : String) (meth cls fn : Namespace) (rest : NsChain) (b : NameBinding),
        name ∉ meth.global_names → name ∈ meth.nonlocal_names →
        cls.kind = .class_ → fn.kind ≠ .class_ →
        name ∉ fn.global_names → name ∉ fn.nonlocal_names →
        findBinding name fn.bindings = some b →
        get_binding name (.child meth (.child cls (.child fn rest))) =
          some ⟨.child fn rest, b, rest.moduleData⟩) := by
  constructor
  · intro name s p hg hn
    exact ⟨get_nonlocal_namespace_child s p, stripClasses_not_class p,
           get_binding_nonlocal_defer name s p hg hn⟩
  · intro name meth cls fn rest b hg hn hcls hfn hfg hfn' hb
    rw [get_binding_nonlocal_defer name meth _ hg hn]
    have hstrip : stripClasses (.child cls (.child fn rest)) = .child fn rest := by
      simp [stripClasses, hcls, hfn]
    rw [hstrip]
    have := get_binding_local_found name fn rest b hfg hfn' hb
    simpa [NsChain.moduleData] using this

/-- Witness for C1: a chain module ⊂ function f ⊂ class C ⊂ method, with the
name `a` declared nonlocal in the method and bound both in the class body
and in the function; resolution returns the function's binding. -/
theorem nonlocal_skips_class_scopes_witness :
    (("a" : String) ∉ (["x"] : List String)) ∧ ("a" : String) ∈ (["a"] : List String) ∧
    NSKind.class_ = NSKind.class_ ∧ NSKind.function ≠ NSKind.class_ ∧
    findBinding "a" [⟨"a", false, true⟩] = some ⟨"a", false, true⟩ ∧
    get_binding "a"
      (.child { kind := .function, nonlocal_names := ["a"], global_names := ["x"] }
        (.child { kind := .class_, bindings := [⟨"a", false, false⟩] }
          (.child { kind := .function, bindings := [⟨"a", false, true⟩] }
            (.module { kind := .module })))) =
      some ⟨.child { kind := .function, bindings := [⟨"a", false, true⟩] }
              (.module { kind := .module }),
            ⟨"a", false, true⟩, { kind := .module }⟩ := by
  refine ⟨by decide, by decide, rfl, by decide, by decide, ?_⟩
  exact nonlocal_skips_class_scopes.2 "a"
    { kind := .function, nonlocal_names := ["a"], global_names := ["x"] }
    { kind := .class_, bindings := [⟨"a", false, false⟩] }
    { kind := .function, bindings := [⟨"a", false, true⟩] }
    (.module { kind := .module }) ⟨"a", false, true⟩
    (by decide) (by decide) rfl (by decide) (by decide) (by decide) (by decide)

/-- C2: a name occurrence whose name is in its owning (non-module) scope's
declared-global set resolves in the module scope, even when same-named
bindings exist in intermediate enclosing function scopes. -/
theorem global_resolves_in_module_scope :
    (∀ (name : String) (s : Namespace) (p : NsChain),
        name ∈ s.global_names →
        get_global_namespace (.child s p) = .module p.moduleData ∧
        get_binding name (.child s p) = get_binding name (.module p.moduleData)) ∧
    (∀ (name : String) (inner mid m : Namespace) (b : NameBinding),
        name ∈ inner.global_names →
        findBinding name m.bindings = some b →
        get_binding name (.child inner (.child mid (.module m))) =
          some ⟨.module m, b, m⟩) := by
  constructor
  · intro name s p hg
    refine ⟨?_, get_binding_global_defer name s p hg⟩
    have := get_global_namespace_eq_moduleData (.child s p)
    simpa [NsChain.moduleData] using this
  · intro name inner mid m b hg hb
    rw [get_binding_global_defer name inner _ hg]
    simpa [NsChain.moduleData] using get_binding_module_found name m b hb

/-- Witness for C2: `g` declared global in an inner function while an
intermediate function scope holds a same-named binding; resolution returns
the module binding. -/
theorem global_resolves_in_module_scope_witness :
    ("g" : String) ∈ (["g"] : List String) ∧
    findBinding "g" [⟨"g", false, true⟩] = some ⟨"g", false, true⟩ ∧
    get_binding "g"
      (.child { kind := .function, global_names := ["g"] }
        (.child { kind := .function, bindings := [⟨"g", false, false⟩] }
          (.module { kind := .module, bindings := [⟨"g", false, true⟩] }))) =
      some ⟨.module { kind := .module, bindings := [⟨"g", false, true⟩] },
            ⟨"g", false, true⟩,
            { kind := .module, bindings := [⟨"g", false, true⟩] }⟩ := by
  refine ⟨by decide, by decide, ?_⟩
  exact global_resolves_in_module_scope.2 "g"
    { kind := .function, global_names := ["g"] }
    { kind := .function, bindings := [⟨"g", false, false⟩] }
    { kind := .module, bindings := [⟨"g", false, true⟩] }
    ⟨"g", false, true⟩ (by decide) (by decide)

/-- C6: a name unresolved at module scope that is not a known builtin is not
rejected: a placeholder binding with renaming permanently disallowed and the
original name text preserved is created and registered in the module scope,
and a later occurrence of the same name reuses that binding instead of
creating a new one. -/
theorem unresolvable_name_placeholder_binding (name : String) (m : Namespace)
    (hb : findBinding name m.bindings = none) (hbi : name ∉ builtin_names) :
    get_binding name (.module m) =
      some ⟨.module { m with bindings := m.bindings ++ [⟨name, false, false⟩] },
            ⟨name, false, false⟩,
            { m with bindings := m.bindings ++ [⟨name, false, false⟩] }⟩ ∧
    (NameBinding.mk name false false).allow_rename = false ∧
    (NameBinding.mk name false false).name = name ∧
    get_binding name
        (.module { m with bindings := m.bindings ++ [⟨name, false, false⟩] }) =
      some ⟨.module { m with bindings := m.bindings ++ [⟨name, false, false⟩] },
            ⟨name, false, false⟩,
            { m with bindings := m.bindings ++ [⟨name, false, false⟩] }⟩ := by
  refine ⟨get_binding_module_placeholder name m hb hbi, rfl, rfl, ?_⟩
  apply get_binding_module_found
  simp [findBinding_append_of_none name m.bindings _ hb]

/-- Witness for C6: the name `frobnicate`, unresolved in an empty module
namespace and not a builtin, gets a rename-disallowed placeholder binding
that a second lookup reuses. -/
theorem unresolvable_name_placeholder_binding_witness :
    findBinding "frobnicate" ([] : List NameBinding) = none ∧
    ("frobnicate" : String) ∉ builtin_names ∧
    (get_binding "frobnicate" (.module { kind := .module }) =
      some ⟨.module { kind := .module, bindings := [⟨"frobnicate", false, false⟩] },
            ⟨"frobnicate", false, false⟩,
            { kind := .module, bindings := [⟨"frobnicate", false, false⟩] }⟩ ∧
    (NameBinding.mk "frobnicate" false false).allow_rename = false ∧
    (NameBinding.mk "frobnicate" false false).name = "frobnicate" ∧
    get_binding "frobnicate"
        (.module { kind := .module, bindings := [⟨"frobnicate", false, false⟩] }) =
      some ⟨.module { kind := .module, bindings := [⟨"frobnicate", false, false⟩] },
            ⟨"frobnicate", false, false⟩,
            { kind := .module, bindings := [⟨"frobnicate", false, false⟩] }⟩) := by
  refine ⟨rfl, by decide, ?_⟩
  have h := unresolvable_name_placeholder_binding "frobnicate" { kind := .module }
    rfl (by decide)
  simpa using h

/-- C7 (code evaluated at the failing input): resolving the builtin `eval`
unresolved at module scope creates a builtin binding once — a second lookup
reuses it — and assigns the plain attribute `tainted`; but the advisory
taint flag `is_tainted`, which reads the `_tainted` field that only
`Namespace.taint()` sets, stays `false`, so the taint is not observable
through `is_tainted` as the claim states. -/
theorem builtin_eval_binding_created_but_taint_unobservable :
    get_binding "eval" (.module { kind := .module }) =
      some ⟨.module { kind := .module, bindings := [⟨"eval", true, true⟩],
                      tainted_attr := true },
            ⟨"eval", true, true⟩,
            { kind := .module, bindings := [⟨"eval", true, true⟩],
              tainted_attr := true }⟩ ∧
    (NameBinding.mk "eval" true true).is_builtin = true ∧
    ({ kind := .module, bindings := [⟨"eval", true, true⟩],
       tainted_attr := true } : Namespace).tainted_attr = true ∧
    Namespace.is_tainted { kind := .module, bindings := [⟨"eval", true, true⟩],
                           tainted_attr := true } = false ∧
    get_binding "eval"
        (.module { kind := .module, bindings := [⟨"eval", true, true⟩],
                   tainted_attr := true }) =
      some ⟨.module { kind := .module, bindings := [⟨"eval", true, true⟩],
                      tainted_attr := true },
            ⟨"eval", true, true⟩,
            { kind := .module, bindings := [⟨"eval", true, true⟩],
              tainted_attr := true }⟩ := by
  refine ⟨?_, rfl, rfl, rfl, ?_⟩
  · have h := get_binding_module_builtin_introspecting "eval" { kind := .module }
      rfl (by decide) (by decide)
    simpa using h
  · apply get_binding_module_found
    decide

/-! ## Rename-eligibility policy (`util.arg_rename_in_place`) -/

/-- The kind tag of the node that introduced the namespace a parameter
belongs to (`node.namespace.node` in `arg_rename_in_place`). -/
inductive FuncNodeKind where
  | functionDef
  | asyncFunctionDef
  | lambda_
  | comprehension
deriving DecidableEq, Repr

/-- A decorator expression as far as `arg_rename_in_place` inspects it: a
bare `ast.Name` reference, or anything else. -/
inductive Decorator where
  | nameRef (id : String)
  | otherExpr
deriving DecidableEq, Repr

/-- The `ast.arguments` node of the enclosing function; parameter nodes are
identified by numeric ids modelling Python object identity (the source
compares them with `is` and `in`, i.e. by identity). -/
structure ArgsNode where
  posonlyargs : List Nat := []
  args : List Nat := []
  vararg : Option Nat := none
  kwarg : Option Nat := none
deriving DecidableEq, Repr

/-- The function node `node.namespace.node` of a parameter, as far as
`arg_rename_in_place` inspects it: its kind, whether its own namespace is a
class namespace (`isinstance(func_node.namespace, ClassNamespace)`), its
decorator list and its arguments node. -/
structure FuncNode where
  kind : FuncNodeKind
  namespaceIsClass : Bool
  decorator_list : List Decorator := []
  fargs : ArgsNode
deriving DecidableEq, Repr

/-- `util.arg_rename_in_place`.  The Python nested-if block for the first
entry of `args.args` of a method falls through to the variadic and
positional-only checks when its decorator test fails; the fall-through is
realised by folding the decorator test into the second condition.  The
decorator test `len(dl) == 1 and isinstance(dl[0], ast.Name) and
dl[0].id == 'classmethod'` is the list equation with `Decorator.nameRef`. -/
def arg_rename_in_place (node : Nat) (func_node : FuncNode) : Bool :=
  if func_node.kind = .comprehension then
    true
  else if func_node.namespaceIsClass = true ∧ func_node.kind ≠ .lambda_ ∧
          0 < func_node.fargs.args.length ∧
          func_node.fargs.args.head? = some node ∧
          (func_node.decorator_list = [] ∨
           func_node.decorator_list = [.nameRef "classmethod"]) then
    true
  else if func_node.fargs.vararg = some node ∨ func_node.fargs.kwarg = some node then
    true
  else if node ∈ func_node.fargs.posonlyargs then
    true
  else
    false

/-- Following the claim's words, for comparison with the code: the first
positional parameter of a function is the first of its positional
parameters, position-only ones included. -/
def first_positional (f : FuncNode) : Option Nat :=
  (f.fargs.posonlyargs ++ f.fargs.args).head?

/-- Following the claim's words, for comparison with the code: the
decorator combinations the claim says keep a method receiver eligible. -/
def claim_decorators_ok (f : FuncNode) : Prop :=
  f.decorator_list = [] ∨ f.decorator_list = [.nameRef "classmethod"]

/-- C8 counterexample: a method whose first positional parameter is
position-only (as in `def m(self, /)` inside a class), decorated with one
decorator that is not the class-method decorator.  The claim says the
parameter is ineligible; `arg_rename_in_place` returns `true`, because the
first-parameter rule only inspects the head of the plain `args.args` list
and the position-only rule then grants eligibility unconditionally. -/
theorem first_positional_posonly_decorated_still_eligible :
    first_positional { kind := .functionDef, namespaceIsClass := true,
                       decorator_list := [.nameRef "mydeco"],
                       fargs := { posonlyargs := [0] } } = some 0 ∧
    ¬ claim_decorators_ok { kind := .functionDef, namespaceIsClass := true,
                            decorator_list := [.nameRef "mydeco"],
                            fargs := { posonlyargs := [0] } } ∧
    arg_rename_in_place 0 { kind := .functionDef, namespaceIsClass := true,
                            decorator_list := [.nameRef "mydeco"],
                            fargs := { posonlyargs := [0] } } = true := by
  refine ⟨rfl, ?_, by decide⟩
  intro h
  rcases h with h | h <;> simp [Decorator.nameRef.injEq] at h

/-- C8 amended: for a parameter node that is the first entry of the plain
(non-position-only) argument list of a named, non-lambda function whose
owning namespace is a class namespace — and that, as in any well-formed
tree, is distinct from the vararg, the kwarg and the position-only
parameters — `arg_rename_in_place` returns true iff the function has no
decorators or exactly one decorator that is a bare name reference to
`classmethod`.  (A position-only first parameter is instead always
eligible, by the position-only rule.) -/
theorem method_first_arg_eligibility (node : Nat) (f : FuncNode)
    (hkind : f.kind = .functionDef ∨ f.kind = .asyncFunctionDef)
    (hclass : f.namespaceIsClass = true)
    (hfirst : f.fargs.args.head? = some node)
    (hv : f.fargs.vararg ≠ some node) (hk : f.fargs.kwarg ≠ some node)
    (hp : node ∉ f.fargs.posonlyargs) :
    arg_rename_in_place node f = true ↔ claim_decorators_ok f := by
  have hc : f.kind ≠ .comprehension := by rcases hkind with h | h <;> simp [h]
  have hl : f.kind ≠ .lambda_ := by rcases hkind with h | h <;> simp [h]
  have hlen : 0 < f.fargs.args.length := by
    cases hargs : f.fargs.args with
    | nil => rw [hargs] at hfirst; cases hfirst
    | cons a rest => simp
  by_cases hd : claim_decorators_ok f
  · unfold claim_decorators_ok at hd
    simp [arg_rename_in_place, hc, hclass, hl, hlen, hfirst, hd]
    exact hd
  · unfold claim_decorators_ok at hd
    simp [arg_rename_in_place, hc, hd, hv, hk, hp, claim_decorators_ok]

/-- Witness for the amended C8: an undecorated method receiver (head of the
plain argument list) is eligible. -/
theorem method_first_arg_eligibility_witness :
    ((FuncNodeKind.functionDef = FuncNodeKind.functionDef ∨
      FuncNodeKind.functionDef = FuncNodeKind.asyncFunctionDef) ∧
     ([(7 : Nat)] : List Nat).head? = some 7 ∧
     (none : Option Nat) ≠ some 7 ∧ (7 : Nat) ∉ ([] : List Nat)) ∧
    (arg_rename_in_place 7 { kind := .functionDef, namespaceIsClass := true,
                             fargs := { args := [7] } } = true ↔
      claim_decorators_ok { kind := .functionDef, namespaceIsClass := true,
                            fargs := { args := [7] } }) := by
  refine ⟨⟨Or.inl rfl, rfl, by decide, by decide⟩, ?_⟩
  exact method_first_arg_eligibility 7
    { kind := .functionDef, namespaceIsClass := true, fargs := { args := [7] } }
    (Or.inl rfl) rfl rfl (by decide) (by decide) (by decide)

/-! ## Exhaustive Constant dispatch (`suite_transformer.NodeVisitor.visit_Constant`) -/

/-- The value of an `ast.Constant` node as `visit_Constant` classifies it;
`otherType` carries the name of the value's type, for values of a kind the
dispatch does not recognise. -/
inductive ConstValue where
  | noneVal
  | trueVal
  | falseVal
  | intVal (n : Int)
  | floatVal
  | complexVal
  | strVal (s : String)
  | bytesVal
  | ellipsisVal
  | otherType (typeName : String)
deriving DecidableEq, Repr

/-- An `ast.Constant` node with its source-location attributes. -/
structure ConstantNode where
  value : ConstValue
  lineno : Nat
  col_offset : Nat
deriving DecidableEq, Repr

/-- Python evaluates `node.value in [None, True, False]` with `==`, under
which the ints 0 and 1 compare equal to False and True. -/
def value_in_name_const_list : ConstValue → Bool
  | .noneVal | .trueVal | .falseVal => true
  | .intVal n => n == 0 || n == 1
  | _ => false

/-- The text `%r` interpolates for the value's type (Python prints the type
name between quotes; the quotes are omitted in this model). -/
def type_repr : ConstValue → String
  | .noneVal => "<class NoneType>"
  | .trueVal | .falseVal => "<class bool>"
  | .intVal _ => "<class int>"
  | .floatVal => "<class float>"
  | .complexVal => "<class complex>"
  | .strVal _ => "<class str>"
  | .bytesVal => "<class bytes>"
  | .ellipsisVal => "<class ellipsis>"
  | .otherType t => "<class " ++ t ++ ">"

/-- `NodeVisitor.visit_Constant`: chooses the visit method for the value's
legacy node kind, or raises `RuntimeError` (modelled by `Except.error`) with
the message `Unknown Constant value %r` interpolating the value's type for
a value of unrecognised kind. -/
def visit_Constant_dispatch (node : ConstantNode) : Except String String :=
  if value_in_name_const_list node.value then .ok "visit_NameConstant"
  else if (match node.value with
           | .intVal _ | .floatVal | .complexVal => true
           | _ => false) then .ok "visit_Num"
  else if (match node.value with | .strVal _ => true | _ => false) then .ok "visit_Str"
  else if (match node.value with | .bytesVal => true | _ => false) then .ok "visit_Bytes"
  else if node.value = .ellipsisVal then .ok "visit_Ellipsis"
  else .error ("Unknown Constant value " ++ type_repr node.value)

/-- C9 counterexample: a `Constant` holding a value of unrecognised kind
(e.g. a frozenset) makes `visit_Constant` abort, but with a diagnostic that
is the same at two different source locations — so the diagnostic does not
name the node's source location, contrary to the claim. -/
theorem unknown_constant_diagnostic_lacks_location :
    visit_Constant_dispatch { value := .otherType "frozenset", lineno := 3,
                              col_offset := 7 } =
      .error "Unknown Constant value <class frozenset>" ∧
    visit_Constant_dispatch { value := .otherType "frozenset", lineno := 99,
                              col_offset := 0 } =
      .error "Unknown Constant value <class frozenset>" ∧
    ({ value := .otherType "frozenset", lineno := 3, col_offset := 7 } :
        ConstantNode) ≠
      { value := .otherType "frozenset", lineno := 99, col_offset := 0 } := by
  exact ⟨rfl, rfl, by decide⟩

/-- C9 amended: a `Constant` value of unrecognised kind reaching the
exhaustive dispatch of `visit_Constant` always aborts processing with a
`RuntimeError` diagnostic naming the offending value's type — it is never
silently skipped — but the diagnostic does not include the node's source
location: it is identical at every location. -/
theorem unknown_constant_kind_aborts (t : String) (l c l2 c2 : Nat) :
    visit_Constant_dispatch { value := .otherType t, lineno := l,
                              col_offset := c } =
      .error ("Unknown Constant value <class " ++ t ++ ">") ∧
    visit_Constant_dispatch { value := .otherType t, lineno := l,
                              col_offset := c } =
      visit_Constant_dispatch { value := .otherType t, lineno := l2,
                                col_offset := c2 } := by
  exact ⟨rfl, rfl⟩

/-! ## The scope tree builder (`create_namespaces.py`)

The syntax tree is embedded by the mutual inductive family below, covering
the node kinds the builder dispatches on plus representative statement and
expression kinds for its generic recursion arm.  `ast.arguments`, `ast.arg`
and `ast.comprehension` are separate node types, as in Python.  Field order
follows the `_fields` order of the Python `ast` classes. -/

/-- `ast.expr_context`: `Load`, `Store` or `Del`. -/
inductive Ctx where
  | load
  | store
  | del_
deriving DecidableEq, Repr

mutual

inductive AST where
  | Module (body : List AST)
  | FunctionDef (fname : String) (args : Arguments) (body : List AST)
      (decorator_list : List AST) (returns : Option AST) (type_params : List AST)
  | AsyncFunctionDef (fname : String) (args : Arguments) (body : List AST)
      (decorator_list : List AST) (returns : Option AST) (type_params : List AST)
  | Lambda (args : Arguments) (lbody : AST)
  | ClassDef (cname : String) (bases : List AST) (keywords : List AST)
      (body : List AST) (decorator_list : List AST) (type_params : List AST)
  | GeneratorExp (elt : AST) (generators : List Comp)
  | SetComp (elt : AST) (generators : List Comp)
  | ListComp (elt : AST) (generators : List Comp)
  | DictComp (key : AST) (valu : AST) (generators : List Comp)
  | Global (names : List String)
  | Nonlocal (names : List String)
  | Name (id : String) (ctx : Ctx)
  | Assign (targets : List AST) (value : AST)
  | AugAssign (target : AST) (value : AST)
  | ExprStmt (value : AST)
  | BinOp (left : AST) (right : AST)
  | TypeVar (tname : String)
  | Pass
  | ConstantInt (n : Int)

inductive Arguments where
  | mk (posonlyargs : List Arg) (args : List Arg) (kwonlyargs : List Arg)
      (kw_defaults : List (Option AST)) (defaults : List AST)
      (vararg : Option Arg) (kwarg : Option Arg)

inductive Arg where
  | mk (aname : String) (annot : Option AST)

inductive Comp where
  | mk (target : AST) (iter : AST) (ifs : List AST)

end

instance : Inhabited AST := ⟨.Pass⟩

mutual

/-- Structural equality of embedded syntax nodes (Python compares nodes by
object identity; in this embedding theorems use structurally distinct
nodes, for which structural equality coincides with identity). -/
def astBeq : AST → AST → Bool
  | .Module b1, .Module b2 => astListBeq b1 b2
  | .FunctionDef n1 a1 b1 d1 r1 t1, .FunctionDef n2 a2 b2 d2 r2 t2 =>
      n1 == n2 && argumentsBeq a1 a2 && astListBeq b1 b2 && astListBeq d1 d2 &&
      astOptBeq r1 r2 && astListBeq t1 t2
  | .AsyncFunctionDef n1 a1 b1 d1 r1 t1, .AsyncFunctionDef n2 a2 b2 d2 r2 t2 =>
      n1 == n2 && argumentsBeq a1 a2 && astListBeq b1 b2 && astListBeq d1 d2 &&
      astOptBeq r1 r2 && astListBeq t1 t2
  | .Lambda a1 b1, .Lambda a2 b2 => argumentsBeq a1 a2 && astBeq b1 b2
  | .ClassDef n1 bs1 kw1 b1 d1 t1, .ClassDef n2 bs2 kw2 b2 d2 t2 =>
      n1 == n2 && astListBeq bs1 bs2 && astListBeq kw1 kw2 && astListBeq b1 b2 &&
      astListBeq d1 d2 && astListBeq t1 t2
  | .GeneratorExp e1 g1, .GeneratorExp e2 g2 => astBeq e1 e2 && compListBeq g1 g2
  | .SetComp e1 g1, .SetComp e2 g2 => astBeq e1 e2 && compListBeq g1 g2
  | .ListComp e1 g1, .ListComp e2 g2 => astBeq e1 e2 && compListBeq g1 g2
  | .DictComp k1 v1 g1, .DictComp k2 v2 g2 =>
      astBeq k1 k2 && astBeq v1 v2 && compListBeq g1 g2
  | .Global n1, .Global n2 => n1 == n2
  | .Nonlocal n1, .Nonlocal n2 => n1 == n2
  | .Name i1 c1, .Name i2 c2 => i1 == i2 && c1 == c2
  | .Assign t1 v1, .Assign t2 v2 => astListBeq t1 t2 && astBeq v1 v2
  | .AugAssign t1 v1, .AugAssign t2 v2 => astBeq t1 t2 && astBeq v1 v2
  | .ExprStmt v1, .ExprStmt v2 => astBeq v1 v2
  | .BinOp l1 r1, .BinOp l2 r2 => astBeq l1 l2 && astBeq r1 r2
  | .TypeVar t1, .TypeVar t2 => t1 == t2
  | .Pass, .Pass => true
  | .ConstantInt n1, .ConstantInt n2 => n1 == n2
  | _, _ => false
termination_by a b => sizeOf a
decreasing_by all_goals (simp_wf <;> omega)

def astListBeq : List AST → List AST → Bool
  | [], [] => true
  | x :: xs, y :: ys => astBeq x y && astListBeq xs ys
  | _, _ => false
termination_by l1 l2 => sizeOf l1
decreasing_by all_goals (simp_wf <;> omega)

def astOptBeq : Option AST → Option AST → Bool
  | none, none => true
  | some x, some y => astBeq x y
  | _, _ => false
termination_by o1 o2 => sizeOf o1
decreasing_by all_goals (simp_wf <;> omega)

def argumentsBeq : Arguments → Arguments → Bool
  | .mk p1 a1 k1 kd1 d1 v1 kw1, .mk p2 a2 k2 kd2 d2 v2 kw2 =>
      argListBeq p1 p2 && argListBeq a1 a2 && argListBeq k1 k2 &&
      astOptListBeq kd1 kd2 && astListBeq d1 d2 && argOptBeq v1 v2 && argOptBeq kw1 kw2
termination_by a1 a2 => sizeOf a1
decreasing_by all_goals (simp_wf <;> omega)

def argBeq : Arg → Arg → Bool
  | .mk n1 a1, .mk n2 a2 => n1 == n2 && astOptBeq a1 a2
termination_by a1 a2 => sizeOf a1
decreasing_by all_goals (simp_wf <;> omega)

def argListBeq : List Arg → List Arg → Bool
  | [], [] => true
  | x :: xs, y :: ys => argBeq x y && argListBeq xs ys
  | _, _ => false
termination_by l1 l2 => sizeOf l1
decreasing_by all_goals (simp_wf <;> omega)

def argOptBeq : Option Arg → Option Arg → Bool
  | none, none => true
  | some x, some y => argBeq x y
  | _, _ => false
termination_by o1 o2 => sizeOf o1
decreasing_by all_goals (simp_wf <;> omega)

def astOptListBeq : List (Option AST) → List (Option AST) → Bool
  | [], [] => true
  | x :: xs, y :: ys => astOptBeq x y && astOptListBeq xs ys
  | _, _ => false
termination_by l1 l2 => sizeOf l1
decreasing_by all_goals (simp_wf <;> omega)

def compBeq : Comp → Comp → Bool
  | .mk t1 i1 f1, .mk t2 i2 f2 => astBeq t1 t2 && astBeq i1 i2 && astListBeq f1 f2
termination_by c1 c2 => sizeOf c1
decreasing_by all_goals (simp_wf <;> omega)

def compListBeq : List Comp → List Comp → Bool
  | [], [] => true
  | x :: xs, y :: ys => compBeq x y && compListBeq xs ys
  | _, _ => false
termination_by l1 l2 => sizeOf l1
decreasing_by all_goals (simp_wf <;> omega)

end

/-- One namespace in the namespace tree, stored in an arena addressed by
stable index (creation order); `parentIdx` is the `parent_namespace`
back-reference set by `Namespace.add_child`. -/
structure NSData where
  kind : NSKind
  nsName : String
  nsNode : AST
  parentIdx : Option Nat
  global_names : List String := []
  nonlocal_names : List String := []

/-- The mutable state of the builder pass: the arena of namespaces and the
`namespace` attribute assignments performed on nodes, in order (an
assignment later in the list overwrites an earlier one, as attribute
assignment does). -/
structure BuildState where
  arena : List NSData
  ann : List (AST × Nat) := []
  annArg : List (Arg × Nat) := []
  annArguments : List (Arguments × Nat) := []
  annComp : List (Comp × Nat) := []

/-- `node.namespace = parent_namespace` for an expression/statement node. -/
def annotate (st : BuildState) (n : AST) (i : Nat) : BuildState :=
  { st with ann := st.ann ++ [(n, i)] }

/-- `arg.namespace = ...` for an `ast.arg` node. -/
def annotateArg (st : BuildState) (a : Arg) (i : Nat) : BuildState :=
  { st with annArg := st.annArg ++ [(a, i)] }

/-- `arguments.namespace = function_namespace`. -/
def annotateArguments (st : BuildState) (a : Arguments) (i : Nat) : BuildState :=
  { st with annArguments := st.annArguments ++ [(a, i)] }

/-- `generator.namespace = comprehension_namespace`. -/
def annotateComp (st : BuildState) (c : Comp) (i : Nat) : BuildState :=
  { st with annComp := st.annComp ++ [(c, i)] }

/-- Create a namespace and attach it under `parent` (`Namespace.add_child`);
returns the new namespace's index, which is the old arena length. -/
def add_child (st : BuildState) (parent : Nat) (kind : NSKind) (nsName : String)
    (node : AST) : BuildState × Nat :=
  ({ st with arena := st.arena ++
       [{ kind := kind, nsName := nsName, nsNode := node, parentIdx := some parent }] },
   st.arena.length)

/-- Update the namespace at index `i` in place. -/
def updateNamespace (st : BuildState) (i : Nat) (f : NSData → NSData) : BuildState :=
  match st.arena.get? i with
  | some ns => { st with arena := st.arena.set i (f ns) }
  | none => st

/-- `set.add`: sets are modelled as duplicate-free insertion-ordered lists. -/
def addName (l : List String) (n : String) : List String :=
  if n ∈ l then l else l ++ [n]

/-- `set.update`. -/
def addNames (l : List String) (ns : List String) : List String :=
  ns.foldl addName l

/-- The kind of the namespace at index `i` (used for
`isinstance(parent_namespace, ClassNamespace)`). -/
def kindAt (st : BuildState) (i : Nat) : Option NSKind :=
  (st.arena.get? i).map (·.kind)

/-- The last `namespace` attribute assignment recorded for a node (a later
assignment overwrites an earlier one). -/
def lastAssign : List (AST × Nat) → AST → Option Nat
  | [], _ => none
  | (m, i) :: rest, n =>
      match lastAssign rest n with
      | some j => some j
      | none => if astBeq m n then some i else none

/-- The final owning namespace of a node: the last `namespace` attribute
assignment recorded for it. -/
def nsOf (st : BuildState) (n : AST) : Option Nat :=
  lastAssign st.ann n

mutual

/-- `create_namespaces.create_child_namespaces`, the scope-tree builder's
dispatcher.  The `parent` argument models the `node.parent` attribute
installed by `add_parent.add_parent` (the syntactic parent of `node`); it
is consulted only by the class-scope Name rule, and is passed as `none`
where the Python parent is a node kind outside this model's `AST` type
(an `ast.arguments`, `ast.arg` or `ast.comprehension` node — never an
`ast.AugAssign`).  Nodes with no special isinstance case (`Module`,
`Assign`, `AugAssign`, `ExprStmt`, `BinOp`, `TypeVar`, `Pass`,
`ConstantInt`) take the generic arm: recurse into the children in field
order (`TypeVar` is modelled without its optional bound expression). -/
def create_child_namespaces (node : AST) (parent : Option AST)
    (parent_namespace : Nat) (st : BuildState) : BuildState :=
  let st1 := annotate st node parent_namespace
  match node with
  | .FunctionDef fname args body dlist rets tparams =>
      create_functiondef_namespace (.FunctionDef fname args body dlist rets tparams)
        parent_namespace st1
  | .AsyncFunctionDef fname args body dlist rets tparams =>
      create_functiondef_namespace (.AsyncFunctionDef fname args body dlist rets tparams)
        parent_namespace st1
  | .GeneratorExp elt gens =>
      create_comprehension_namespace (.GeneratorExp elt gens) parent_namespace st1
  | .SetComp elt gens =>
      create_comprehension_namespace (.SetComp elt gens) parent_namespace st1
  | .DictComp k v gens =>
      create_comprehension_namespace (.DictComp k v gens) parent_namespace st1
  | .ListComp elt gens =>
      create_comprehension_namespace (.ListComp elt gens) parent_namespace st1
  | .Lambda args lbody =>
      create_lambda_namespace (.Lambda args lbody) parent_namespace st1
  | .ClassDef cname bases kws body dlist tparams =>
      create_class_namespace (.ClassDef cname bases kws body dlist tparams)
        parent_namespace st1
  | .Global names =>
      updateNamespace st1 parent_namespace
        (fun ns => { ns with global_names := addNames ns.global_names names })
  | .Nonlocal names =>
      updateNamespace st1 parent_namespace
        (fun ns => { ns with nonlocal_names := addNames ns.nonlocal_names names })
  | .Name id ctx =>
      match kindAt st1 parent_namespace with
      | some .class_ =>
          match ctx with
          | .load =>
              updateNamespace st1 parent_namespace
                (fun ns => { ns with nonlocal_names := addName ns.nonlocal_names id })
          | .store =>
              match parent with
              | some (.AugAssign t v) =>
                  updateNamespace st1 parent_namespace
                    (fun ns => { ns with nonlocal_names := addName ns.nonlocal_names id })
              | _ => st1
          | .del_ => st1
      | _ => st1
  | .Module body => create_suite body (some (.Module body)) parent_namespace st1
  | .Assign targets value =>
      let st2 := create_suite targets (some (.Assign targets value)) parent_namespace st1
      create_child_namespaces value (some (.Assign targets value)) parent_namespace st2
  | .AugAssign target value =>
      let st2 := create_child_namespaces target (some (.AugAssign target value))
        parent_namespace st1
      create_child_namespaces value (some (.AugAssign target value)) parent_namespace st2
  | .ExprStmt v =>
      create_child_namespaces v (some (.ExprStmt v)) parent_namespace st1
  | .BinOp l r =>
      let st2 := create_child_namespaces l (some (.BinOp l r)) parent_namespace st1
      create_child_namespaces r (some (.BinOp l r)) parent_namespace st2
  | .TypeVar tname => st1
  | .Pass => st1
  | .ConstantInt n => st1
termination_by (sizeOf node, 2)

/-- Process a suite of statements (or a list of expressions) in order, each
through the dispatcher. -/
def create_suite (suite : List AST) (parent : Option AST) (ns : Nat)
    (st : BuildState) : BuildState :=
  match suite with
  | [] => st
  | n :: rest => create_suite rest parent ns (create_child_namespaces n parent ns st)
termination_by (sizeOf suite, 2)

/-- `create_namespaces.create_functiondef_namespace` (the source handles
`FunctionDef` and `AsyncFunctionDef` in the same function; here the two
arms carry the same body).  With a non-empty type-parameter list an
annotation namespace is interposed; the arguments are processed against
the original `parent_namespace`, the body against the function namespace,
decorators and the return annotation against `parent_namespace`. -/
def create_functiondef_namespace (functiondef : AST) (parent_namespace : Nat)
    (st : BuildState) : BuildState :=
  match functiondef with
  | .FunctionDef fname args body dlist rets tparams =>
      let fd := AST.FunctionDef fname args body dlist rets tparams
      let stfn :=
        if tparams.isEmpty then
          add_child st parent_namespace .function fname fd
        else
          let p1 := add_child st parent_namespace .annot fname fd
          let p2 := add_child p1.1 p1.2 .function fname fd
          let st2 := create_suite tparams (some fd) p1.2 p2.1
          (st2, p2.2)
      let st3 := assign_arguments_to_namespace args parent_namespace stfn.2 stfn.1
      let st4 := create_suite body (some fd) stfn.2 st3
      let st5 := create_suite dlist (some fd) parent_namespace st4
      match rets with
      | some r => create_child_namespaces r (some fd) parent_namespace st5
      | none => st5
  | .AsyncFunctionDef fname args body dlist rets tparams =>
      let fd := AST.AsyncFunctionDef fname args body dlist rets tparams
      let stfn :=
        if tparams.isEmpty then
          add_child st parent_namespace .function fname fd
        else
          let p1 := add_child st parent_namespace .annot fname fd
          let p2 := add_child p1.1 p1.2 .function fname fd
          let st2 := create_suite tparams (some fd) p1.2 p2.1
          (st2, p2.2)
      let st3 := assign_arguments_to_namespace args parent_namespace stfn.2 stfn.1
      let st4 := create_suite body (some fd) stfn.2 st3
      let st5 := create_suite dlist (some fd) parent_namespace st4
      match rets with
      | some r => create_child_namespaces r (some fd) parent_namespace st5
      | none => st5
  | _ => st
termination_by (sizeOf functiondef, 1)

/-- `create_namespaces.create_lambda_namespace`. -/
def create_lambda_namespace (lambda_ : AST) (parent_namespace : Nat)
    (st : BuildState) : BuildState :=
  match lambda_ with
  | .Lambda args lbody =>
      let lam := AST.Lambda args lbody
      let p := add_child st parent_namespace .function "Lambda" lam
      let st2 := assign_arguments_to_namespace args parent_namespace p.2 p.1
      create_child_namespaces lbody (some lam) p.2 st2
  | _ => st
termination_by (sizeOf lambda_, 1)

/-- `create_namespaces.create_class_namespace` (each `ast.keyword`'s value
expression is modelled directly; the Python-2-only `starargs`/`kwargs`
branches are dead on Python 3 and omitted). -/
def create_class_namespace (classdef : AST) (parent_namespace : Nat)
    (st : BuildState) : BuildState :=
  match classdef with
  | .ClassDef cname bases kws body dlist tparams =>
      let cd := AST.ClassDef cname bases kws body dlist tparams
      let stcn :=
        if tparams.isEmpty then
          add_child st parent_namespace .class_ cname cd
        else
          let p1 := add_child st parent_namespace .annot cname cd
          let p2 := add_child p1.1 p1.2 .class_ cname cd
          let st2 := create_suite tparams (some cd) p1.2 p2.1
          (st2, p2.2)
      let st3 := create_suite bases (some cd) parent_namespace stcn.1
      let st4 := create_suite kws (some cd) parent_namespace st3
      let st5 := create_suite body (some cd) stcn.2 st4
      create_suite dlist (some cd) parent_namespace st5
  | _ => st
termination_by (sizeOf classdef, 1)

/-- `create_namespaces.create_comprehension_namespace`: one function-kind
namespace named after the node's class; the element (or key and value)
expression is evaluated inside it, and the generators are processed with
`iter_namespace` starting at the enclosing namespace. -/
def create_comprehension_namespace (node : AST) (parent_namespace : Nat)
    (st : BuildState) : BuildState :=
  match node with
  | .GeneratorExp elt gens =>
      let n := AST.GeneratorExp elt gens
      let p := add_child st parent_namespace .function "GeneratorExp" n
      let st2 := create_child_namespaces elt (some n) p.2 p.1
      process_generators gens p.2 parent_namespace st2
  | .SetComp elt gens =>
      let n := AST.SetComp elt gens
      let p := add_child st parent_namespace .function "SetComp" n
      let st2 := create_child_namespaces elt (some n) p.2 p.1
      process_generators gens p.2 parent_namespace st2
  | .ListComp elt gens =>
      let n := AST.ListComp elt gens
      let p := add_child st parent_namespace .function "ListComp" n
      let st2 := create_child_namespaces elt (some n) p.2 p.1
      process_generators gens p.2 parent_namespace st2
  | .DictComp k v gens =>
      let n := AST.DictComp k v gens
      let p := add_child st parent_namespace .function "DictComp" n
      let st2 := create_child_namespaces k (some n) p.2 p.1
      let st3 := create_child_namespaces v (some n) p.2 st2
      process_generators gens p.2 parent_namespace st3
  | _ => st
termination_by (sizeOf node, 1)

/-- The `for generator in node.generators` loop of
`create_comprehension_namespace`: the target, then the iterable in the
current `iter_namespace`, then the filters; after the first clause
`iter_namespace` becomes the comprehension namespace.  (The syntactic
parent of the target, iterable and filters is the `ast.comprehension`
node, outside this model's `AST` type, hence `none`.) -/
def process_generators (gens : List Comp) (comprehension_namespace : Nat)
    (iter_namespace : Nat) (st : BuildState) : BuildState :=
  match gens with
  | [] => st
  | .mk target iter ifs :: rest =>
      let st1 := annotateComp st (.mk target iter ifs) comprehension_namespace
      let st2 := create_child_namespaces target none comprehension_namespace st1
      let st3 := create_child_namespaces iter none iter_namespace st2
      let st4 := create_suite ifs none comprehension_namespace st3
      process_generators rest comprehension_namespace comprehension_namespace st4
termination_by (sizeOf gens, 2)

/-- `create_namespaces.assign_arguments_to_namespace` (the Python-2-only
string/`varargannotation` branches are dead on Python 3 and omitted; the
loop over `posonlyargs + args` is realised as two consecutive loops). -/
def assign_arguments_to_namespace (arguments : Arguments)
    (parent_namespace function_namespace : Nat) (st : BuildState) : BuildState :=
  match arguments with
  | .mk posonlyargs args kwonlyargs kw_defaults defaults vararg kwarg =>
      let st1 := annotateArguments st
        (.mk posonlyargs args kwonlyargs kw_defaults defaults vararg kwarg)
        function_namespace
      let st2 := process_pos_args posonlyargs parent_namespace function_namespace st1
      let st3 := process_pos_args args parent_namespace function_namespace st2
      let st4 := process_pos_args kwonlyargs parent_namespace function_namespace st3
      let st5 := process_kw_defaults kw_defaults parent_namespace st4
      let st6 := create_suite defaults none parent_namespace st5
      let st7 :=
        match vararg with
        | some a => process_arg_node a function_namespace st6
        | none => st6
      match kwarg with
      | some a => process_arg_node a function_namespace st7
      | none => st7
termination_by (sizeOf arguments, 1)

/-- One iteration of the positional / keyword-only argument loops:
`create_child_namespaces(arg, function_namespace)` followed by the explicit
`create_child_namespaces(arg.annotation, parent_namespace)` when an
annotation is present (so an annotation expression is visited twice, first
in the function namespace through the arg node's generic recursion, then in
the parent namespace; the second assignment wins). -/
def process_pos_args (l : List Arg) (parent_namespace function_namespace : Nat)
    (st : BuildState) : BuildState :=
  match l with
  | [] => st
  | .mk aname annot :: rest =>
      let st1 := process_arg_node (.mk aname annot) function_namespace st
      let st2 :=
        match annot with
        | some e => create_child_namespaces e none parent_namespace st1
        | none => st1
      process_pos_args rest parent_namespace function_namespace st2
termination_by (sizeOf l, 2)

/-- `create_child_namespaces` applied to an `ast.arg` node: the node takes
the generic arm, which annotates it and recurses into its only child, the
annotation expression. -/
def process_arg_node (a : Arg) (ns : Nat) (st : BuildState) : BuildState :=
  match a with
  | .mk aname annot =>
      let st1 := annotateArg st (.mk aname annot) ns
      match annot with
      | some e => create_child_namespaces e none ns st1
      | none => st1
termination_by (sizeOf a, 2)

/-- The `for node in arguments.kw_defaults: if node is not None` loop. -/
def process_kw_defaults (l : List (Option AST)) (parent_namespace : Nat)
    (st : BuildState) : BuildState :=
  match l with
  | [] => st
  | some d :: rest =>
      process_kw_defaults rest parent_namespace
        (create_child_namespaces d none parent_namespace st)
  | none :: rest => process_kw_defaults rest parent_namespace st
termination_by (sizeOf l, 2)

end

/-- `create_namespaces.create_all_namespaces`: create the module namespace
and build the tree under it. -/
def create_all_namespaces (module : AST) : BuildState :=
  let st : BuildState :=
    { arena := [{ kind := .module, nsName := "", nsNode := module, parentIdx := none }] }
  create_child_namespaces module none 0 st

theorem get?_set_of_some {α : Type} (l : List α) (i : Nat) (a b : α)
    (h : l.get? i = some b) : (l.set i a).get? i = some a := by
  induction l generalizing i with
  | nil => cases h
  | cons x rest ih =>
      cases i with
      | zero => rfl
      | succ j => exact ih j h

theorem addName_mem (l : List String) (n : String) : n ∈ addName l n := by
  unfold addName
  split
  · assumption
  · exact List.mem_append.mpr (Or.inr (List.mem_singleton.mpr rfl))

/-- The nonlocal-names set of the namespace at index `i`. -/
def nonlocalNamesAt (st : BuildState) (i : Nat) : Option (List String) :=
  (st.arena.get? i).map (·.nonlocal_names)

/-! ## Claims about the scope tree builder -/

/-- C3: during scope-tree construction, a plain name directly in class-scope
context that is read (load context), or whose store-context occurrence has
an augmented assignment as syntactic parent (a compound update), is added
to the class scope's declared-nonlocal set — the builder records no binding
for it (it records no bindings at all; the Binder is a separate later pass) —
and a name in a class scope's declared-nonlocal set resolves outside the
class, in the nearest enclosing non-class scope; an ordinary simple write
(store context, parent not an augmented assignment) leaves the namespace
arena unchanged. -/
theorem class_free_names_recorded_nonlocal :
    (∀ (st : BuildState) (p : Nat) (par : Option AST) (nm : String) (ns : NSData),
        st.arena.get? p = some ns → ns.kind = .class_ →
        nonlocalNamesAt (create_child_namespaces (.Name nm .load) par p st) p =
          some (addName ns.nonlocal_names nm) ∧
        nm ∈ addName ns.nonlocal_names nm) ∧
    (∀ (st : BuildState) (p : Nat) (nm : String) (ns : NSData) (t v : AST),
        st.arena.get? p = some ns → ns.kind = .class_ →
        nonlocalNamesAt (create_child_namespaces (.Name nm .store)
            (some (.AugAssign t v)) p st) p =
          some (addName ns.nonlocal_names nm) ∧
        nm ∈ addName ns.nonlocal_names nm) ∧
    (∀ (st : BuildState) (p : Nat) (par : Option AST) (nm : String),
        (∀ t v, par ≠ some (.AugAssign t v)) →
        (create_child_namespaces (.Name nm .store) par p st).arena = st.arena) ∧
    (∀ (nm : String) (s : Namespace) (pch : NsChain),
        s.kind = .class_ → nm ∈ s.nonlocal_names → nm ∉ s.global_names →
        get_binding nm (.child s pch) = get_binding nm (stripClasses pch) ∧
        isClassNs (stripClasses pch) = false) := by
  refine ⟨?_, ?_, ?_, ?_⟩
  · intro st p par nm ns hget hkind
    refine ⟨?_, addName_mem _ _⟩
    rw [create_child_namespaces.eq_def]
    simp only [annotate, kindAt, updateNamespace, hget, hkind, Option.map, nonlocalNamesAt]
    rw [get?_set_of_some _ _ _ _ hget]
  · intro st p nm ns t v hget hkind
    refine ⟨?_, addName_mem _ _⟩
    rw [create_child_namespaces.eq_def]
    simp only [annotate, kindAt, updateNamespace, hget, hkind, Option.map, nonlocalNamesAt]
    rw [get?_set_of_some _ _ _ _ hget]
  · intro st p par nm hpar
    rw [create_child_namespaces.eq_def]
    simp only [annotate]
    split <;> rfl
  · intro nm s pch hkind hn hg
    exact ⟨get_binding_nonlocal_defer nm s pch hg hn, stripClasses_not_class pch⟩

/-- A one-entry arena holding a class scope, for the C3 witness. -/
def classNSDataEx : NSData :=
  { kind := .class_, nsName := "C", nsNode := .Pass, parentIdx := none }

/-- The builder state over `classNSDataEx`, for the C3 witness. -/
def classArenaEx : BuildState :=
  { arena := [classNSDataEx] }

/-- A class scope with `A` declared nonlocal, for the C3 witness. -/
def clsScopeEx : Namespace :=
  { kind := .class_, nonlocal_names := ["A"] }

/-- An enclosing function scope binding `A`, over the module scope, for the
C3 witness. -/
def fnChainEx : NsChain :=
  .child { kind := .function, bindings := [⟨"A", false, true⟩] }
    (.module { kind := .module })

/-- Witness for C3: in a one-namespace arena holding a class scope, a load
of `A` (and a compound-update store of `A`) is recorded in the class scope's
declared-nonlocal set, a simple store leaves the arena unchanged, and `A`
then resolves past the class scope into the enclosing function scope. -/
theorem class_free_names_recorded_nonlocal_witness :
    classArenaEx.arena.get? 0 = some classNSDataEx ∧
    classNSDataEx.kind = .class_ ∧
    nonlocalNamesAt (create_child_namespaces (.Name "A" .load) none 0
        classArenaEx) 0 = some ["A"] ∧
    nonlocalNamesAt (create_child_namespaces (.Name "A" .store)
        (some (.AugAssign (.Name "A" .store) (.ConstantInt 1))) 0
        classArenaEx) 0 = some ["A"] ∧
    (create_child_namespaces (.Name "A" .store)
        (some (.Assign [.Name "A" .store] (.ConstantInt 1))) 0
        classArenaEx).arena = [classNSDataEx] ∧
    get_binding "A" (.child clsScopeEx fnChainEx) =
      get_binding "A" (stripClasses fnChainEx) := by
  have h := class_free_names_recorded_nonlocal
  refine ⟨rfl, rfl, ?_, ?_, ?_, ?_⟩
  · have := (h.1 classArenaEx 0 none "A" classNSDataEx rfl rfl).1
    simpa [addName] using this
  · have := (h.2.1 classArenaEx 0 "A" classNSDataEx
      (.Name "A" .store) (.ConstantInt 1) rfl rfl).1
    simpa [addName] using this
  · exact h.2.2.1 _ 0 _ "A" (by intro t v hc; simp at hc)
  · exact (h.2.2.2 "A" clsScopeEx fnChainEx rfl (by decide) (by decide)).1

/-- `def f[T](x: T = c) -> R: pass` — the arguments node of a generic
function whose parameter carries a type annotation `T` and a default value
reading the enclosing-scope name `c`. -/
def genericFnArgsEx : Arguments :=
  .mk [] [.mk "x" (some (.Name "T" .load))] [] [] [.Name "c" .load] none none

/-- The generic function definition itself. -/
def genericFnEx : AST :=
  .FunctionDef "f" genericFnArgsEx [.Pass] [] (some (.Name "R" .load)) [.TypeVar "T"]

/-- The builder's output for a module holding only `genericFnEx`; the arena
is: 0 = module scope, 1 = annotation scope, 2 = function scope. -/
def genericModuleSt : BuildState :=
  create_all_namespaces (.Module [genericFnEx])

set_option maxHeartbeats 4000000 in
set_option maxRecDepth 10000 in
/-- C4 counterexample: for `def f[T](x: T = c) -> R`, the type-parameter
node's owning scope is the annotation scope (index 1), but the parameter
type annotation `T` and the return annotation `R` have the module scope
(index 0, the enclosing scope) as their owning scope — and the module scope
is the root, with no parent, so the annotation scope is not on the
annotation expressions' enclosing-scope chain: the type-parameter name is
not visible to the parameter type annotation or the return annotation,
contrary to the claim. -/
theorem typeparam_not_visible_to_annotations :
    nsOf genericModuleSt (.TypeVar "T") = some 1 ∧
    (genericModuleSt.arena.get? 1).map (·.kind) = some .annot ∧
    nsOf genericModuleSt (.Name "T" .load) = some 0 ∧
    nsOf genericModuleSt (.Name "R" .load) = some 0 ∧
    (genericModuleSt.arena.get? 0).map (·.parentIdx) = some none := by
  simp [genericModuleSt, genericFnEx, genericFnArgsEx, create_all_namespaces,
        create_child_namespaces.eq_def, create_suite.eq_def,
        create_functiondef_namespace.eq_def, assign_arguments_to_namespace.eq_def,
        process_pos_args.eq_def, process_arg_node.eq_def, process_kw_defaults.eq_def,
        annotate, annotateArg, annotateArguments, add_child, updateNamespace, kindAt,
        nsOf, lastAssign, astBeq.eq_def, astListBeq.eq_def]

/-- A generic class `class K[U]: pass`. -/
def genericClassEx : AST :=
  .ClassDef "K" [] [] [.Pass] [] [.TypeVar "U"]

/-- The builder's output for a module holding only `genericClassEx`; the
arena is: 0 = module scope, 1 = annotation scope, 2 = class scope. -/
def genericClassSt : BuildState :=
  create_all_namespaces (.Module [genericClassEx])

set_option maxHeartbeats 4000000 in
set_option maxRecDepth 10000 in
/-- C4 amended: for a function (or class) definition carrying a
type-parameter list, an annotation scope is interposed between the
enclosing scope and the function (or class) scope, both recording the
definition node; each type-parameter name's owning scope is the annotation
scope; and the parameter type annotations, the return-type annotation and
the default-value expressions all have the enclosing scope as their owning
scope — so type-parameter names are visible to the function body through
the scope chain, but not to the annotations or the defaults. -/
theorem typeparam_annotation_scope_interposed :
    (genericModuleSt.arena.get? 1).map (·.kind) = some .annot ∧
    (genericModuleSt.arena.get? 1).map (·.parentIdx) = some (some 0) ∧
    (genericModuleSt.arena.get? 2).map (·.kind) = some .function ∧
    (genericModuleSt.arena.get? 2).map (·.parentIdx) = some (some 1) ∧
    (genericModuleSt.arena.get? 1).map (·.nsNode) = some genericFnEx ∧
    (genericModuleSt.arena.get? 2).map (·.nsNode) = some genericFnEx ∧
    nsOf genericModuleSt (.TypeVar "T") = some 1 ∧
    nsOf genericModuleSt (.Name "c" .load) = some 0 ∧
    nsOf genericModuleSt (.Name "T" .load) = some 0 ∧
    nsOf genericModuleSt (.Name "R" .load) = some 0 ∧
    nsOf genericModuleSt (.Pass) = some 2 ∧
    (genericClassSt.arena.get? 1).map (·.kind) = some .annot ∧
    (genericClassSt.arena.get? 1).map (·.parentIdx) = some (some 0) ∧
    (genericClassSt.arena.get? 2).map (·.kind) = some .class_ ∧
    (genericClassSt.arena.get? 2).map (·.parentIdx) = some (some 1) ∧
    (genericClassSt.arena.get? 1).map (·.nsNode) = some genericClassEx ∧
    (genericClassSt.arena.get? 2).map (·.nsNode) = some genericClassEx ∧
    nsOf genericClassSt (.TypeVar "U") = some 1 := by
  simp [genericModuleSt, genericFnEx, genericFnArgsEx, genericClassSt, genericClassEx,
        create_all_namespaces,
        create_child_namespaces.eq_def, create_suite.eq_def,
        create_functiondef_namespace.eq_def, create_class_namespace.eq_def,
        assign_arguments_to_namespace.eq_def,
        process_pos_args.eq_def, process_arg_node.eq_def, process_kw_defaults.eq_def,
        annotate, annotateArg, annotateArguments, add_child, updateNamespace, kindAt,
        nsOf, lastAssign, astBeq.eq_def, astListBeq.eq_def]

/-- An empty `ast.arguments` node. -/
def emptyArgsEx : Arguments := .mk [] [] [] [] [] none none

/-- `(e for t1 in i1 if f1 for t2 in i2)` inside `def f(): ...` — a
two-clause generator expression whose enclosing scope is a function scope. -/
def genexpEx : AST :=
  .GeneratorExp (.Name "e" .load)
    [.mk (.Name "t1" .store) (.Name "i1" .load) [.Name "f1" .load],
     .mk (.Name "t2" .store) (.Name "i2" .load) []]

/-- The function wrapping `genexpEx`. -/
def compFnEx : AST := .FunctionDef "f" emptyArgsEx [.ExprStmt genexpEx] [] none []

/-- Builder output; arena: 0 = module, 1 = function `f`, 2 = the
comprehension scope. -/
def compFnSt : BuildState := create_all_namespaces (.Module [compFnEx])

/-- A one-clause set comprehension with a filter. -/
def setcompEx : AST :=
  .SetComp (.Name "se" .load) [.mk (.Name "sa" .store) (.Name "sb" .load) [.Name "sc" .load]]

/-- A one-clause list comprehension. -/
def listcompEx : AST :=
  .ListComp (.Name "le" .load) [.mk (.Name "la" .store) (.Name "lb" .load) []]

/-- A two-clause dict comprehension. -/
def dictcompEx : AST :=
  .DictComp (.Name "dk" .load) (.Name "dv" .load)
    [.mk (.Name "da" .store) (.Name "db" .load) [],
     .mk (.Name "dc" .store) (.Name "dd" .load) []]

/-- Builder output for a module holding the three other comprehension
kinds; arena: 0 = module, 1 = set, 2 = list, 3 = dict comprehension scope. -/
def otherCompsSt : BuildState :=
  create_all_namespaces
    (.Module [.ExprStmt setcompEx, .ExprStmt listcompEx, .ExprStmt dictcompEx])

set_option maxHeartbeats 4000000 in
set_option maxRecDepth 10000 in
/-- C5: every comprehension-style construct gets a function-kind scope; the
iterable of the first clause is owned by the enclosing scope (here a
function scope for the generator expression, the module scope for the
others), while the element (or key/value) expression, every loop target,
every filter condition, and the iterables of all subsequent clauses are
owned by the comprehension scope. -/
theorem comprehension_scope_ownership :
    (compFnSt.arena.get? 2).map (·.kind) = some .function ∧
    (compFnSt.arena.get? 2).map (·.parentIdx) = some (some 1) ∧
    (compFnSt.arena.get? 2).map (·.nsNode) = some genexpEx ∧
    nsOf compFnSt (.Name "i1" .load) = some 1 ∧
    nsOf compFnSt (.Name "e" .load) = some 2 ∧
    nsOf compFnSt (.Name "t1" .store) = some 2 ∧
    nsOf compFnSt (.Name "f1" .load) = some 2 ∧
    nsOf compFnSt (.Name "t2" .store) = some 2 ∧
    nsOf compFnSt (.Name "i2" .load) = some 2 ∧
    (otherCompsSt.arena.get? 1).map (·.kind) = some .function ∧
    (otherCompsSt.arena.get? 1).map (·.nsNode) = some setcompEx ∧
    nsOf otherCompsSt (.Name "sb" .load) = some 0 ∧
    nsOf otherCompsSt (.Name "se" .load) = some 1 ∧
    nsOf otherCompsSt (.Name "sa" .store) = some 1 ∧
    nsOf otherCompsSt (.Name "sc" .load) = some 1 ∧
    (otherCompsSt.arena.get? 2).map (·.kind) = some .function ∧
    (otherCompsSt.arena.get? 2).map (·.nsNode) = some listcompEx ∧
    nsOf otherCompsSt (.Name "lb" .load) = some 0 ∧
    nsOf otherCompsSt (.Name "le" .load) = some 2 ∧
    nsOf otherCompsSt (.Name "la" .store) = some 2 ∧
    (otherCompsSt.arena.get? 3).map (·.kind) = some .function ∧
    (otherCompsSt.arena.get? 3).map (·.nsNode) = some dictcompEx ∧
    nsOf otherCompsSt (.Name "db" .load) = some 0 ∧
    nsOf otherCompsSt (.Name "dk" .load) = some 3 ∧
    nsOf otherCompsSt (.Name "dv" .load) = some 3 ∧
    nsOf otherCompsSt (.Name "da" .store) = some 3 ∧
    nsOf otherCompsSt (.Name "dc" .store) = some 3 ∧
    nsOf otherCompsSt (.Name "dd" .load) = some 3 := by
  simp [compFnSt, compFnEx, genexpEx, otherCompsSt, setcompEx, listcompEx, dictcompEx,
        emptyArgsEx, create_all_namespaces,
        create_child_namespaces.eq_def, create_suite.eq_def,
        create_functiondef_namespace.eq_def, create_comprehension_namespace.eq_def,
        process_generators.eq_def, assign_arguments_to_namespace.eq_def,
        process_pos_args.eq_def, process_arg_node.eq_def, process_kw_defaults.eq_def,
        annotate, annotateArg, annotateArguments, annotateComp, add_child,
        updateNamespace, kindAt, nsOf, lastAssign, astBeq.eq_def, astListBeq.eq_def]

/-- A plain function definition. -/
def fdPlainEx : AST := .FunctionDef "a" emptyArgsEx [.Pass] [] none []

/-- Builder output for a module holding `fdPlainEx` (scope 1). -/
def fdPlainSt : BuildState := create_all_namespaces (.Module [fdPlainEx])

/-- A generic function definition (annotation scope 1, function scope 2). -/
def fdTypedEx : AST := .FunctionDef "b" emptyArgsEx [.Pass] [] none [.TypeVar "V"]

/-- Builder output for a module holding `fdTypedEx`. -/
def fdTypedSt : BuildState := create_all_namespaces (.Module [fdTypedEx])

/-- An async function definition. -/
def asyncFnEx : AST := .AsyncFunctionDef "g" emptyArgsEx [.Pass] [] none []

/-- Builder output for a module holding `asyncFnEx` (scope 1). -/
def asyncFnSt : BuildState := create_all_namespaces (.Module [asyncFnEx])

/-- A lambda expression. -/
def lambdaEx : AST := .Lambda emptyArgsEx (.ConstantInt 1)

/-- Builder output for a module holding `lambdaEx` (scope 1). -/
def lambdaSt : BuildState := create_all_namespaces (.Module [.ExprStmt lambdaEx])

/-- A plain class definition. -/
def classPlainEx : AST := .ClassDef "D" [] [] [.Pass] [] []

/-- Builder output for a module holding `classPlainEx` (scope 1). -/
def classPlainSt : BuildState := create_all_namespaces (.Module [classPlainEx])

/-- A generator expression at module level. -/
def genScopeEx : AST :=
  .GeneratorExp (.ConstantInt 3) [.mk (.Name "q1" .store) (.Name "q2" .load) []]

/-- Builder output for a module holding `genScopeEx` (scope 1). -/
def genScopeSt : BuildState := create_all_namespaces (.Module [.ExprStmt genScopeEx])

set_option maxHeartbeats 4000000 in
set_option maxRecDepth 10000 in
/-- Concrete full-build check: for each scope-introducing node kind —
function definition (plain and with type parameters), async function
definition, lambda, class definition, comprehension — the node's own
owning-scope annotation is the enclosing (module) scope, index 0, not the
scope it introduces (index 1, or 1 and 2 for the type-parameter case),
while every introduced scope records that node as its introducing node and
its parent link points at the enclosing scope. -/
theorem scope_introducing_concrete_instances :
    nsOf fdPlainSt fdPlainEx = some 0 ∧
    (fdPlainSt.arena.get? 1).map (·.nsNode) = some fdPlainEx ∧
    (fdPlainSt.arena.get? 1).map (·.kind) = some .function ∧
    (fdPlainSt.arena.get? 1).map (·.parentIdx) = some (some 0) ∧
    nsOf fdTypedSt fdTypedEx = some 0 ∧
    (fdTypedSt.arena.get? 1).map (·.nsNode) = some fdTypedEx ∧
    (fdTypedSt.arena.get? 2).map (·.nsNode) = some fdTypedEx ∧
    (fdTypedSt.arena.get? 1).map (·.parentIdx) = some (some 0) ∧
    (fdTypedSt.arena.get? 2).map (·.parentIdx) = some (some 1) ∧
    nsOf asyncFnSt asyncFnEx = some 0 ∧
    (asyncFnSt.arena.get? 1).map (·.nsNode) = some asyncFnEx ∧
    (asyncFnSt.arena.get? 1).map (·.parentIdx) = some (some 0) ∧
    nsOf lambdaSt lambdaEx = some 0 ∧
    (lambdaSt.arena.get? 1).map (·.nsNode) = some lambdaEx ∧
    (lambdaSt.arena.get? 1).map (·.parentIdx) = some (some 0) ∧
    nsOf classPlainSt classPlainEx = some 0 ∧
    (classPlainSt.arena.get? 1).map (·.nsNode) = some classPlainEx ∧
    (classPlainSt.arena.get? 1).map (·.kind) = some .class_ ∧
    (classPlainSt.arena.get? 1).map (·.parentIdx) = some (some 0) ∧
    nsOf genScopeSt genScopeEx = some 0 ∧
    (genScopeSt.arena.get? 1).map (·.nsNode) = some genScopeEx ∧
    (genScopeSt.arena.get? 1).map (·.parentIdx) = some (some 0) ∧
    (some 0 : Option Nat) ≠ some 1 ∧ (some 0 : Option Nat) ≠ some 2 := by
  simp [fdPlainSt, fdPlainEx, fdTypedSt, fdTypedEx, asyncFnSt, asyncFnEx,
        lambdaSt, lambdaEx, classPlainSt, classPlainEx, genScopeSt, genScopeEx,
        emptyArgsEx, create_all_namespaces,
        create_child_namespaces.eq_def, create_suite.eq_def,
        create_functiondef_namespace.eq_def, create_class_namespace.eq_def,
        create_lambda_namespace.eq_def, create_comprehension_namespace.eq_def,
        process_generators.eq_def, assign_arguments_to_namespace.eq_def,
        process_pos_args.eq_def, process_arg_node.eq_def, process_kw_defaults.eq_def,
        annotate, annotateArg, annotateArguments, annotateComp, add_child,
        updateNamespace, kindAt, nsOf, lastAssign,
        astBeq.eq_def, astListBeq.eq_def, argumentsBeq.eq_def, argListBeq.eq_def,
        astOptBeq.eq_def, astOptListBeq.eq_def, argOptBeq.eq_def,
        compBeq.eq_def, compListBeq.eq_def]

end PyCompactor

namespace PyCompactor

theorem get?_set_of_some2 {α : Type} (l : List α) (i : Nat) (a b : α)
    (h : l.get? i = some b) : (l.set i a).get? i = some a := by
  induction l generalizing i with
  | nil => cases h
  | cons x rest ih =>
      cases i with
      | zero => rfl
      | succ j => exact ih j h

/-- The identity-relevant fields of the namespace at index `i`: introducing
node, kind, parent link and descriptive name (everything except the mutable
declared-name sets). -/
def arenaFieldsAt (st : BuildState) (i : Nat) : Option (AST × NSKind × Option Nat × String) :=
  (st.arena.get? i).map (fun ns => (ns.nsNode, ns.kind, ns.parentIdx, ns.nsName))

/-- A builder step extends the state: annotations are appended, namespaces
are appended, and existing namespaces keep their node, kind, parent and
name (only their declared-name sets may change). -/
def extendsSt (st st' : BuildState) : Prop :=
  (∃ l, st'.ann = st.ann ++ l) ∧
  st.arena.length ≤ st'.arena.length ∧
  ∀ i, i < st.arena.length → arenaFieldsAt st' i = arenaFieldsAt st i

theorem extendsSt_refl (st : BuildState) : extendsSt st st :=
  ⟨⟨[], by simp⟩, Nat.le_refl _, fun i h => rfl⟩

theorem extendsSt_trans {s1 s2 s3 : BuildState}
    (h12 : extendsSt s1 s2) (h23 : extendsSt s2 s3) : extendsSt s1 s3 := by
  obtain ⟨⟨l1, ha1⟩, hl1, hf1⟩ := h12
  obtain ⟨⟨l2, ha2⟩, hl2, hf2⟩ := h23
  refine ⟨⟨l1 ++ l2, by simp [ha2, ha1]⟩, Nat.le_trans hl1 hl2, fun i hi => ?_⟩
  rw [hf2 i (Nat.lt_of_lt_of_le hi hl1), hf1 i hi]

theorem extendsSt_annotate (st : BuildState) (n : AST) (i : Nat) :
    extendsSt st (annotate st n i) :=
  ⟨⟨[(n, i)], rfl⟩, Nat.le_refl _, fun _ _ => rfl⟩

theorem extendsSt_annotateArg (st : BuildState) (a : Arg) (i : Nat) :
    extendsSt st (annotateArg st a i) :=
  ⟨⟨[], by simp [annotateArg]⟩, Nat.le_refl _, fun _ _ => rfl⟩

theorem extendsSt_annotateArguments (st : BuildState) (a : Arguments) (i : Nat) :
    extendsSt st (annotateArguments st a i) :=
  ⟨⟨[], by simp [annotateArguments]⟩, Nat.le_refl _, fun _ _ => rfl⟩

theorem extendsSt_annotateComp (st : BuildState) (c : Comp) (i : Nat) :
    extendsSt st (annotateComp st c i) :=
  ⟨⟨[], by simp [annotateComp]⟩, Nat.le_refl _, fun _ _ => rfl⟩

theorem extendsSt_add_child (st : BuildState) (p : Nat) (k : NSKind)
    (nm : String) (node : AST) : extendsSt st (add_child st p k nm node).1 := by
  refine ⟨⟨[], by simp [add_child]⟩, by simp [add_child], fun i hi => ?_⟩
  simp only [add_child, arenaFieldsAt]
  rw [List.get?_append hi]

theorem add_child_new_entry (st : BuildState) (p : Nat) (k : NSKind)
    (nm : String) (node : AST) :
    arenaFieldsAt (add_child st p k nm node).1 st.arena.length =
      some (node, k, some p, nm) := by
  simp only [add_child, arenaFieldsAt]
  rw [List.get?_concat_length]
  rfl

theorem extendsSt_updateNamespace (st : BuildState) (i : Nat) (f : NSData → NSData)
    (hf : ∀ ns, (f ns).nsNode = ns.nsNode ∧ (f ns).kind = ns.kind ∧
          (f ns).parentIdx = ns.parentIdx ∧ (f ns).nsName = ns.nsName) :
    extendsSt st (updateNamespace st i f) := by
  unfold updateNamespace
  cases hg : st.arena.get? i with
  | none => exact extendsSt_refl st
  | some ns =>
      refine ⟨⟨[], by simp⟩, by simp, fun j hj => ?_⟩
      simp only [arenaFieldsAt]
      by_cases hij : i = j
      · subst hij
        rw [get?_set_of_some2 _ _ _ _ hg, hg]
        simp [(hf ns).1, (hf ns).2.1, (hf ns).2.2.1, (hf ns).2.2.2]
      · rw [List.get?_set_ne _ _ hij]

/-- At bound `k`, every builder function whose termination measure is below
`k` extends its input state. -/
def BuilderP (k : Nat) : Prop :=
    (∀ (node : AST) (par : Option AST) (p : Nat) (st : BuildState),
        2 * sizeOf node + 1 ≤ k → extendsSt st (create_child_namespaces node par p st)) ∧
    (∀ (suite : List AST) (par : Option AST) (p : Nat) (st : BuildState),
        2 * sizeOf suite ≤ k → extendsSt st (create_suite suite par p st)) ∧
    (∀ (node : AST) (p : Nat) (st : BuildState),
        2 * sizeOf node ≤ k → extendsSt st (create_functiondef_namespace node p st)) ∧
    (∀ (node : AST) (p : Nat) (st : BuildState),
        2 * sizeOf node ≤ k → extendsSt st (create_lambda_namespace node p st)) ∧
    (∀ (node : AST) (p : Nat) (st : BuildState),
        2 * sizeOf node ≤ k → extendsSt st (create_class_namespace node p st)) ∧
    (∀ (node : AST) (p : Nat) (st : BuildState),
        2 * sizeOf node ≤ k → extendsSt st (create_comprehension_namespace node p st)) ∧
    (∀ (gens : List Comp) (c i : Nat) (st : BuildState),
        2 * sizeOf gens ≤ k → extendsSt st (process_generators gens c i st)) ∧
    (∀ (args : Arguments) (p f : Nat) (st : BuildState),
        2 * sizeOf args ≤ k → extendsSt st (assign_arguments_to_namespace args p f st)) ∧
    (∀ (l : List Arg) (p f : Nat) (st : BuildState),
        2 * sizeOf l ≤ k → extendsSt st (process_pos_args l p f st)) ∧
    (∀ (a : Arg) (n : Nat) (st : BuildState),
        2 * sizeOf a ≤ k → extendsSt st (process_arg_node a n st)) ∧
    (∀ (l : List (Option AST)) (p : Nat) (st : BuildState),
        2 * sizeOf l ≤ k → extendsSt st (process_kw_defaults l p st))

end PyCompactor

namespace PyCompactor

set_option maxHeartbeats 2000000 in
set_option maxRecDepth 10000 in
theorem builderP_dispatch_step (k : Nat) (ih : BuilderP k) :
    ∀ (node : AST) (par : Option AST) (p : Nat) (st : BuildState),
      2 * sizeOf node + 1 ≤ k + 1 → extendsSt st (create_child_namespaces node par p st) := by
  obtain ⟨ihD, ihS, ihF, ihL, ihC, ihG, ihPG, ihAA, ihPA, ihAN, ihKD⟩ := ih
  intro node par p st hb
  cases node <;> rw [create_child_namespaces.eq_def]
  case Module body =>
    simp only [AST.Module.sizeOf_spec] at hb
    exact extendsSt_trans (extendsSt_annotate st _ p) (ihS body _ p _ (by omega))
  case FunctionDef fname args body dlist rets tparams =>
    simp only [AST.FunctionDef.sizeOf_spec] at hb
    refine extendsSt_trans (extendsSt_annotate st _ p) (ihF _ p _ ?_)
    simp only [AST.FunctionDef.sizeOf_spec]
    omega
  case AsyncFunctionDef fname args body dlist rets tparams =>
    simp only [AST.AsyncFunctionDef.sizeOf_spec] at hb
    refine extendsSt_trans (extendsSt_annotate st _ p) (ihF _ p _ ?_)
    simp only [AST.AsyncFunctionDef.sizeOf_spec]
    omega
  case Lambda args lbody =>
    simp only [AST.Lambda.sizeOf_spec] at hb
    refine extendsSt_trans (extendsSt_annotate st _ p) (ihL _ p _ ?_)
    simp only [AST.Lambda.sizeOf_spec]
    omega
  case ClassDef cname bases kws body dlist tparams =>
    simp only [AST.ClassDef.sizeOf_spec] at hb
    refine extendsSt_trans (extendsSt_annotate st _ p) (ihC _ p _ ?_)
    simp only [AST.ClassDef.sizeOf_spec]
    omega
  case GeneratorExp elt gens =>
    simp only [AST.GeneratorExp.sizeOf_spec] at hb
    refine extendsSt_trans (extendsSt_annotate st _ p) (ihG _ p _ ?_)
    simp only [AST.GeneratorExp.sizeOf_spec]
    omega
  case SetComp elt gens =>
    simp only [AST.SetComp.sizeOf_spec] at hb
    refine extendsSt_trans (extendsSt_annotate st _ p) (ihG _ p _ ?_)
    simp only [AST.SetComp.sizeOf_spec]
    omega
  case ListComp elt gens =>
    simp only [AST.ListComp.sizeOf_spec] at hb
    refine extendsSt_trans (extendsSt_annotate st _ p) (ihG _ p _ ?_)
    simp only [AST.ListComp.sizeOf_spec]
    omega
  case DictComp key valu gens =>
    simp only [AST.DictComp.sizeOf_spec] at hb
    refine extendsSt_trans (extendsSt_annotate st _ p) (ihG _ p _ ?_)
    simp only [AST.DictComp.sizeOf_spec]
    omega
  case Global names =>
    exact extendsSt_trans (extendsSt_annotate st (.Global names) p)
      (extendsSt_updateNamespace _ p _ (fun ns => ⟨rfl, rfl, rfl, rfl⟩))
  case Nonlocal names =>
    exact extendsSt_trans (extendsSt_annotate st (.Nonlocal names) p)
      (extendsSt_updateNamespace _ p _ (fun ns => ⟨rfl, rfl, rfl, rfl⟩))
  case Name id ctx =>
    clear hb
    refine extendsSt_trans (extendsSt_annotate st (.Name id ctx) p) ?_
    cases hk : kindAt (annotate st (.Name id ctx) p) p with
    | none =>
        simp only [hk]
        exact extendsSt_refl _
    | some kk =>
        cases kk <;> simp only [hk]
        case module => exact extendsSt_refl _
        case function => exact extendsSt_refl _
        case annot => exact extendsSt_refl _
        case class_ =>
          cases ctx
          case load =>
            exact extendsSt_updateNamespace _ p _ (fun ns => ⟨rfl, rfl, rfl, rfl⟩)
          case store =>
            cases par with
            | none => exact extendsSt_refl _
            | some a =>
                cases a
                case AugAssign t v =>
                  exact extendsSt_updateNamespace _ p _ (fun ns => ⟨rfl, rfl, rfl, rfl⟩)
                all_goals exact extendsSt_refl _
          case del_ => exact extendsSt_refl _
  case Assign targets value =>
    simp only [AST.Assign.sizeOf_spec] at hb
    exact extendsSt_trans (extendsSt_annotate st _ p)
      (extendsSt_trans (ihS targets _ p _ (by omega))
        (ihD value _ p _ (by omega)))
  case AugAssign target value =>
    simp only [AST.AugAssign.sizeOf_spec] at hb
    exact extendsSt_trans (extendsSt_annotate st _ p)
      (extendsSt_trans (ihD target _ p _ (by omega))
        (ihD value _ p _ (by omega)))
  case ExprStmt v =>
    simp only [AST.ExprStmt.sizeOf_spec] at hb
    exact extendsSt_trans (extendsSt_annotate st _ p) (ihD v _ p _ (by omega))
  case BinOp l r =>
    simp only [AST.BinOp.sizeOf_spec] at hb
    exact extendsSt_trans (extendsSt_annotate st _ p)
      (extendsSt_trans (ihD l _ p _ (by omega))
        (ihD r _ p _ (by omega)))
  case TypeVar tname => exact extendsSt_annotate st _ p
  case Pass => exact extendsSt_annotate st _ p
  case ConstantInt n => exact extendsSt_annotate st _ p

end PyCompactor

namespace PyCompactor

theorem builderP_suite_step (k : Nat) (ih : BuilderP k) :
    ∀ (suite : List AST) (par : Option AST) (p : Nat) (st : BuildState),
      2 * sizeOf suite ≤ k + 1 → extendsSt st (create_suite suite par p st) := by
  obtain ⟨ihD, ihS, ihF, ihL, ihC, ihG, ihPG, ihAA, ihPA, ihAN, ihKD⟩ := ih
  intro suite par p st hb
  cases suite with
  | nil =>
      rw [create_suite.eq_def]
      exact extendsSt_refl st
  | cons n rest =>
      rw [create_suite.eq_def]
      simp only [List.cons.sizeOf_spec] at hb
      exact extendsSt_trans (ihD n par p st (by omega)) (ihS rest par p _ (by omega))

set_option maxHeartbeats 1000000 in
theorem builderP_fdef_step (k : Nat) (ih : BuilderP k) :
    ∀ (node : AST) (p : Nat) (st : BuildState),
      2 * sizeOf node ≤ k + 1 → extendsSt st (create_functiondef_namespace node p st) := by
  obtain ⟨ihD, ihS, ihF, ihL, ihC, ihG, ihPG, ihAA, ihPA, ihAN, ihKD⟩ := ih
  intro node p st hb
  cases node <;> rw [create_functiondef_namespace.eq_def]
  case FunctionDef fname args body dlist rets tparams =>
    simp_arith at hb
    cases rets with
    | none =>
        cases tparams with
        | nil =>
            exact extendsSt_trans
              (extendsSt_trans
                (extendsSt_trans
                  (extendsSt_add_child st p .function fname _)
                  (ihAA args p _ _ (by simp_arith at hb ⊢; omega)))
                (ihS body _ _ _ (by omega)))
              (ihS dlist _ p _ (by omega))
        | cons t ts =>
            exact extendsSt_trans
              (extendsSt_trans
                (extendsSt_trans
                  (extendsSt_trans
                    (extendsSt_trans
                      (extendsSt_add_child st p .annot fname _)
                      (extendsSt_add_child _ _ .function fname _))
                    (ihS (t :: ts) _ _ _ (by simp_arith at hb ⊢; omega)))
                  (ihAA args p _ _ (by simp_arith at hb ⊢; omega)))
                (ihS body _ _ _ (by simp_arith at hb ⊢; omega)))
              (ihS dlist _ p _ (by simp_arith at hb ⊢; omega))
    | some r =>
        cases tparams with
        | nil =>
            exact extendsSt_trans
              (extendsSt_trans
                (extendsSt_trans
                  (extendsSt_trans
                    (extendsSt_add_child st p .function fname _)
                    (ihAA args p _ _ (by simp_arith at hb ⊢; omega)))
                  (ihS body _ _ _ (by simp_arith at hb ⊢; omega)))
                (ihS dlist _ p _ (by simp_arith at hb ⊢; omega)))
              (ihD r _ p _ (by simp_arith at hb ⊢; omega))
        | cons t ts =>
            exact extendsSt_trans
              (extendsSt_trans
                (extendsSt_trans
                  (extendsSt_trans
                    (extendsSt_trans
                      (extendsSt_trans
                        (extendsSt_add_child st p .annot fname _)
                        (extendsSt_add_child _ _ .function fname _))
                      (ihS (t :: ts) _ _ _ (by simp_arith at hb ⊢; omega)))
                    (ihAA args p _ _ (by simp_arith at hb ⊢; omega)))
                  (ihS body _ _ _ (by simp_arith at hb ⊢; omega)))
                (ihS dlist _ p _ (by simp_arith at hb ⊢; omega)))
              (ihD r _ p _ (by simp_arith at hb ⊢; omega))
  case AsyncFunctionDef fname args body dlist rets tparams =>
    simp_arith at hb
    cases rets with
    | none =>
        cases tparams with
        | nil =>
            exact extendsSt_trans
              (extendsSt_trans
                (extendsSt_trans
                  (extendsSt_add_child st p .function fname _)
                  (ihAA args p _ _ (by simp_arith at hb ⊢; omega)))
                (ihS body _ _ _ (by omega)))
              (ihS dlist _ p _ (by omega))
        | cons t ts =>
            exact extendsSt_trans
              (extendsSt_trans
                (extendsSt_trans
                  (extendsSt_trans
                    (extendsSt_trans
                      (extendsSt_add_child st p .annot fname _)
                      (extendsSt_add_child _ _ .function fname _))
                    (ihS (t :: ts) _ _ _ (by simp_arith at hb ⊢; omega)))
                  (ihAA args p _ _ (by simp_arith at hb ⊢; omega)))
                (ihS body _ _ _ (by simp_arith at hb ⊢; omega)))
              (ihS dlist _ p _ (by simp_arith at hb ⊢; omega))
    | some r =>
        cases tparams with
        | nil =>
            exact extendsSt_trans
              (extendsSt_trans
                (extendsSt_trans
                  (extendsSt_trans
                    (extendsSt_add_child st p .function fname _)
                    (ihAA args p _ _ (by simp_arith at hb ⊢; omega)))
                  (ihS body _ _ _ (by simp_arith at hb ⊢; omega)))
                (ihS dlist _ p _ (by simp_arith at hb ⊢; omega)))
              (ihD r _ p _ (by simp_arith at hb ⊢; omega))
        | cons t ts =>
            exact extendsSt_trans
              (extendsSt_trans
                (extendsSt_trans
                  (extendsSt_trans
                    (extendsSt_trans
                      (extendsSt_trans
                        (extendsSt_add_child st p .annot fname _)
                        (extendsSt_add_child _ _ .function fname _))
                      (ihS (t :: ts) _ _ _ (by simp_arith at hb ⊢; omega)))
                    (ihAA args p _ _ (by simp_arith at hb ⊢; omega)))
                  (ihS body _ _ _ (by simp_arith at hb ⊢; omega)))
                (ihS dlist _ p _ (by simp_arith at hb ⊢; omega)))
              (ihD r _ p _ (by simp_arith at hb ⊢; omega))
  all_goals exact extendsSt_refl st

end PyCompactor

namespace PyCompactor

theorem builderP_lambda_step (k : Nat) (ih : BuilderP k) :
    ∀ (node : AST) (p : Nat) (st : BuildState),
      2 * sizeOf node ≤ k + 1 → extendsSt st (create_lambda_namespace node p st) := by
  obtain ⟨ihD, ihS, ihF, ihL, ihC, ihG, ihPG, ihAA, ihPA, ihAN, ihKD⟩ := ih
  intro node p st hb
  cases node <;> rw [create_lambda_namespace.eq_def]
  case Lambda args lbody =>
    simp_arith at hb
    exact extendsSt_trans
      (extendsSt_trans
        (extendsSt_add_child st p .function "Lambda" _)
        (ihAA args p _ _ (by omega)))
      (ihD lbody _ _ _ (by omega))
  all_goals exact extendsSt_refl st

set_option maxHeartbeats 1000000 in
theorem builderP_class_step (k : Nat) (ih : BuilderP k) :
    ∀ (node : AST) (p : Nat) (st : BuildState),
      2 * sizeOf node ≤ k + 1 → extendsSt st (create_class_namespace node p st) := by
  obtain ⟨ihD, ihS, ihF, ihL, ihC, ihG, ihPG, ihAA, ihPA, ihAN, ihKD⟩ := ih
  intro node p st hb
  cases node <;> rw [create_class_namespace.eq_def]
  case ClassDef cname bases kws body dlist tparams =>
    simp_arith at hb
    cases tparams with
    | nil =>
        exact extendsSt_trans
          (extendsSt_trans
            (extendsSt_trans
              (extendsSt_trans
                (extendsSt_add_child st p .class_ cname _)
                (ihS bases _ p _ (by omega)))
              (ihS kws _ p _ (by omega)))
            (ihS body _ _ _ (by omega)))
          (ihS dlist _ p _ (by omega))
    | cons t ts =>
        exact extendsSt_trans
          (extendsSt_trans
            (extendsSt_trans
              (extendsSt_trans
                (extendsSt_trans
                  (extendsSt_trans
                    (extendsSt_add_child st p .annot cname _)
                    (extendsSt_add_child _ _ .class_ cname _))
                  (ihS (t :: ts) _ _ _ (by simp_arith at hb ⊢; omega)))
                (ihS bases _ p _ (by simp_arith at hb ⊢; omega)))
              (ihS kws _ p _ (by simp_arith at hb ⊢; omega)))
            (ihS body _ _ _ (by simp_arith at hb ⊢; omega)))
          (ihS dlist _ p _ (by simp_arith at hb ⊢; omega))
  all_goals exact extendsSt_refl st

theorem builderP_comp_step (k : Nat) (ih : BuilderP k) :
    ∀ (node : AST) (p : Nat) (st : BuildState),
      2 * sizeOf node ≤ k + 1 → extendsSt st (create_comprehension_namespace node p st) := by
  obtain ⟨ihD, ihS, ihF, ihL, ihC, ihG, ihPG, ihAA, ihPA, ihAN, ihKD⟩ := ih
  intro node p st hb
  cases node <;> rw [create_comprehension_namespace.eq_def]
  case GeneratorExp elt gens =>
    simp_arith at hb
    exact extendsSt_trans
      (extendsSt_trans
        (extendsSt_add_child st p .function "GeneratorExp" _)
        (ihD elt _ _ _ (by omega)))
      (ihPG gens _ p _ (by omega))
  case SetComp elt gens =>
    simp_arith at hb
    exact extendsSt_trans
      (extendsSt_trans
        (extendsSt_add_child st p .function "SetComp" _)
        (ihD elt _ _ _ (by omega)))
      (ihPG gens _ p _ (by omega))
  case ListComp elt gens =>
    simp_arith at hb
    exact extendsSt_trans
      (extendsSt_trans
        (extendsSt_add_child st p .function "ListComp" _)
        (ihD elt _ _ _ (by omega)))
      (ihPG gens _ p _ (by omega))
  case DictComp key valu gens =>
    simp_arith at hb
    exact extendsSt_trans
      (extendsSt_trans
        (extendsSt_trans
          (extendsSt_add_child st p .function "DictComp" _)
          (ihD key _ _ _ (by omega)))
        (ihD valu _ _ _ (by omega)))
      (ihPG gens _ p _ (by omega))
  all_goals exact extendsSt_refl st

theorem builderP_generators_step (k : Nat) (ih : BuilderP k) :
    ∀ (gens : List Comp) (c i : Nat) (st : BuildState),
      2 * sizeOf gens ≤ k + 1 → extendsSt st (process_generators gens c i st) := by
  obtain ⟨ihD, ihS, ihF, ihL, ihC, ihG, ihPG, ihAA, ihPA, ihAN, ihKD⟩ := ih
  intro gens c i st hb
  cases gens with
  | nil =>
      rw [process_generators.eq_def]
      exact extendsSt_refl st
  | cons g rest =>
      obtain ⟨target, iter, ifs⟩ := g
      rw [process_generators.eq_def]
      simp only [List.cons.sizeOf_spec, Comp.mk.sizeOf_spec] at hb
      exact extendsSt_trans (extendsSt_annotateComp st _ c)
        (extendsSt_trans (ihD target _ c _ (by omega))
          (extendsSt_trans (ihD iter _ i _ (by omega))
            (extendsSt_trans (ihS ifs _ c _ (by omega))
              (ihPG rest c c _ (by omega)))))

set_option maxHeartbeats 1000000 in
theorem builderP_arguments_step (k : Nat) (ih : BuilderP k) :
    ∀ (args : Arguments) (p f : Nat) (st : BuildState),
      2 * sizeOf args ≤ k + 1 → extendsSt st (assign_arguments_to_namespace args p f st) := by
  obtain ⟨ihD, ihS, ihF, ihL, ihC, ihG, ihPG, ihAA, ihPA, ihAN, ihKD⟩ := ih
  intro args p f st hb
  obtain ⟨posonlyargs, args', kwonlyargs, kw_defaults, defaults, vararg, kwarg⟩ := args
  rw [assign_arguments_to_namespace.eq_def]
  simp_arith at hb
  have hcore : extendsSt st
      (create_suite defaults none p
        (process_kw_defaults kw_defaults p
          (process_pos_args kwonlyargs p f
            (process_pos_args args' p f
              (process_pos_args posonlyargs p f
                (annotateArguments st
                  (.mk posonlyargs args' kwonlyargs kw_defaults defaults vararg kwarg)
                  f)))))) :=
    extendsSt_trans
      (extendsSt_trans
        (extendsSt_trans
          (extendsSt_trans
            (extendsSt_trans
              (extendsSt_annotateArguments st _ f)
              (ihPA posonlyargs p f _ (by omega)))
            (ihPA args' p f _ (by omega)))
          (ihPA kwonlyargs p f _ (by omega)))
        (ihKD kw_defaults p _ (by omega)))
      (ihS defaults _ p _ (by omega))
  cases vararg with
  | none =>
      cases kwarg with
      | none => exact hcore
      | some b =>
          exact extendsSt_trans hcore (ihAN b f _ (by simp_arith at hb ⊢; omega))
  | some a =>
      cases kwarg with
      | none =>
          exact extendsSt_trans hcore (ihAN a f _ (by simp_arith at hb ⊢; omega))
      | some b =>
          exact extendsSt_trans
            (extendsSt_trans hcore (ihAN a f _ (by simp_arith at hb ⊢; omega)))
            (ihAN b f _ (by simp_arith at hb ⊢; omega))

theorem builderP_pos_args_step (k : Nat) (ih : BuilderP k) :
    ∀ (l : List Arg) (p f : Nat) (st : BuildState),
      2 * sizeOf l ≤ k + 1 → extendsSt st (process_pos_args l p f st) := by
  obtain ⟨ihD, ihS, ihF, ihL, ihC, ihG, ihPG, ihAA, ihPA, ihAN, ihKD⟩ := ih
  intro l p f st hb
  cases l with
  | nil =>
      rw [process_pos_args.eq_def]
      exact extendsSt_refl st
  | cons a rest =>
      obtain ⟨aname, annot⟩ := a
      rw [process_pos_args.eq_def]
      simp only [List.cons.sizeOf_spec, Arg.mk.sizeOf_spec] at hb
      cases annot with
      | none =>
          exact extendsSt_trans
            (ihAN _ f st (by simp_arith at hb ⊢; omega))
            (ihPA rest p f _ (by simp_arith at hb ⊢; omega))
      | some e =>
          simp only [Option.some.sizeOf_spec] at hb
          exact extendsSt_trans
            (ihAN _ f st (by simp_arith at hb ⊢; omega))
            (extendsSt_trans (ihD e _ p _ (by simp_arith at hb ⊢; omega))
              (ihPA rest p f _ (by simp_arith at hb ⊢; omega)))

theorem builderP_arg_node_step (k : Nat) (ih : BuilderP k) :
    ∀ (a : Arg) (n : Nat) (st : BuildState),
      2 * sizeOf a ≤ k + 1 → extendsSt st (process_arg_node a n st) := by
  obtain ⟨ihD, ihS, ihF, ihL, ihC, ihG, ihPG, ihAA, ihPA, ihAN, ihKD⟩ := ih
  intro a n st hb
  obtain ⟨aname, annot⟩ := a
  rw [process_arg_node.eq_def]
  simp only [Arg.mk.sizeOf_spec] at hb
  cases annot with
  | none => exact extendsSt_annotateArg st _ n
  | some e =>
      simp only [Option.some.sizeOf_spec] at hb
      exact extendsSt_trans (extendsSt_annotateArg st _ n) (ihD e _ n _ (by omega))

theorem builderP_kw_defaults_step (k : Nat) (ih : BuilderP k) :
    ∀ (l : List (Option AST)) (p : Nat) (st : BuildState),
      2 * sizeOf l ≤ k + 1 → extendsSt st (process_kw_defaults l p st) := by
  obtain ⟨ihD, ihS, ihF, ihL, ihC, ihG, ihPG, ihAA, ihPA, ihAN, ihKD⟩ := ih
  intro l p st hb
  cases l with
  | nil =>
      rw [process_kw_defaults.eq_def]
      exact extendsSt_refl st
  | cons o rest =>
      cases o with
      | none =>
          rw [process_kw_defaults.eq_def]
          simp only [List.cons.sizeOf_spec] at hb
          exact ihKD rest p st (by omega)
      | some d =>
          rw [process_kw_defaults.eq_def]
          simp only [List.cons.sizeOf_spec, Option.some.sizeOf_spec] at hb
          exact extendsSt_trans (ihD d _ p _ (by omega)) (ihKD rest p _ (by omega))

theorem ast_sizeOf_pos (a : AST) : 0 < sizeOf a := by
  cases a <;> simp_arith

theorem list_sizeOf_pos {α : Type} [SizeOf α] (l : List α) : 0 < sizeOf l := by
  cases l <;> simp_arith

theorem arguments_sizeOf_pos (a : Arguments) : 0 < sizeOf a := by
  cases a <;> simp_arith

theorem arg_sizeOf_pos (a : Arg) : 0 < sizeOf a := by
  cases a <;> simp_arith

theorem builderP_zero : BuilderP 0 := by
  refine ⟨?_, ?_, ?_, ?_, ?_, ?_, ?_, ?_, ?_, ?_, ?_⟩ <;>
    (intro x
     intros
     exfalso
     rename_i hb
     first
       | omega
       | exact absurd hb (by have := ast_sizeOf_pos x; omega)
       | exact absurd hb (by have := list_sizeOf_pos x; omega)
       | exact absurd hb (by have := arguments_sizeOf_pos x; omega)
       | exact absurd hb (by have := arg_sizeOf_pos x; omega))

theorem builderP_succ (k : Nat) (ih : BuilderP k) : BuilderP (k + 1) :=
  ⟨builderP_dispatch_step k ih, builderP_suite_step k ih, builderP_fdef_step k ih,
   builderP_lambda_step k ih, builderP_class_step k ih, builderP_comp_step k ih,
   builderP_generators_step k ih, builderP_arguments_step k ih,
   builderP_pos_args_step k ih, builderP_arg_node_step k ih,
   builderP_kw_defaults_step k ih⟩

theorem builderP_all (k : Nat) : BuilderP k := by
  induction k with
  | zero => exact builderP_zero
  | succ k ih => exact builderP_succ k ih

theorem extendsSt_create_child (node : AST) (par : Option AST) (p : Nat) (st : BuildState) :
    extendsSt st (create_child_namespaces node par p st) :=
  (builderP_all (2 * sizeOf node + 1)).1 node par p st (Nat.le_refl _)

theorem extendsSt_create_suite (suite : List AST) (par : Option AST) (p : Nat)
    (st : BuildState) : extendsSt st (create_suite suite par p st) :=
  (builderP_all (2 * sizeOf suite)).2.1 suite par p st (Nat.le_refl _)

theorem extendsSt_assign_arguments (args : Arguments) (p f : Nat) (st : BuildState) :
    extendsSt st (assign_arguments_to_namespace args p f st) :=
  (builderP_all (2 * sizeOf args)).2.2.2.2.2.2.2.1 args p f st (Nat.le_refl _)

theorem extendsSt_process_generators (gens : List Comp) (c i : Nat) (st : BuildState) :
    extendsSt st (process_generators gens c i st) :=
  (builderP_all (2 * sizeOf gens)).2.2.2.2.2.2.1 gens c i st (Nat.le_refl _)

end PyCompactor

namespace PyCompactor

theorem updateNamespace_ann (st : BuildState) (i : Nat) (f : NSData → NSData) :
    (updateNamespace st i f).ann = st.ann := by
  unfold updateNamespace
  cases st.arena.get? i <;> rfl

theorem ann_extends_finish (st : BuildState) (node : AST) (p : Nat) (final : BuildState)
    (h : extendsSt (annotate st node p) final) :
    final.ann.get? st.ann.length = some (node, p) := by
  obtain ⟨⟨l, hl⟩, _, _⟩ := h
  rw [hl]
  show ((st.ann ++ [(node, p)]) ++ l).get? st.ann.length = some (node, p)
  rw [List.append_assoc]
  rw [List.get?_append_right (Nat.le_refl _)]
  simp

theorem extendsSt_create_functiondef (node : AST) (p : Nat) (st : BuildState) :
    extendsSt st (create_functiondef_namespace node p st) :=
  (builderP_all (2 * sizeOf node)).2.2.1 node p st (Nat.le_refl _)

theorem extendsSt_create_lambda (node : AST) (p : Nat) (st : BuildState) :
    extendsSt st (create_lambda_namespace node p st) :=
  (builderP_all (2 * sizeOf node)).2.2.2.1 node p st (Nat.le_refl _)

theorem extendsSt_create_class (node : AST) (p : Nat) (st : BuildState) :
    extendsSt st (create_class_namespace node p st) :=
  (builderP_all (2 * sizeOf node)).2.2.2.2.1 node p st (Nat.le_refl _)

theorem extendsSt_create_comprehension (node : AST) (p : Nat) (st : BuildState) :
    extendsSt st (create_comprehension_namespace node p st) :=
  (builderP_all (2 * sizeOf node)).2.2.2.2.2.1 node p st (Nat.le_refl _)

/-- The dispatcher's very first action is `node.namespace = parent_namespace`:
whatever else the call does, the annotation recorded for `node` at position
`st.ann.length` is the enclosing namespace `p`. -/
theorem create_child_first_ann (node : AST) (par : Option AST) (p : Nat)
    (st : BuildState) :
    (create_child_namespaces node par p st).ann.get? st.ann.length = some (node, p) := by
  cases node <;> rw [create_child_namespaces.eq_def]
  case Module body =>
    exact ann_extends_finish st _ p _ (extendsSt_create_suite body _ p _)
  case FunctionDef fname args body dlist rets tparams =>
    exact ann_extends_finish st _ p _ (extendsSt_create_functiondef _ p _)
  case AsyncFunctionDef fname args body dlist rets tparams =>
    exact ann_extends_finish st _ p _ (extendsSt_create_functiondef _ p _)
  case Lambda args lbody =>
    exact ann_extends_finish st _ p _ (extendsSt_create_lambda _ p _)
  case ClassDef cname bases kws body dlist tparams =>
    exact ann_extends_finish st _ p _ (extendsSt_create_class _ p _)
  case GeneratorExp elt gens =>
    exact ann_extends_finish st _ p _ (extendsSt_create_comprehension _ p _)
  case SetComp elt gens =>
    exact ann_extends_finish st _ p _ (extendsSt_create_comprehension _ p _)
  case ListComp elt gens =>
    exact ann_extends_finish st _ p _ (extendsSt_create_comprehension _ p _)
  case DictComp key valu gens =>
    exact ann_extends_finish st _ p _ (extendsSt_create_comprehension _ p _)
  case Global names =>
    exact ann_extends_finish st _ p _
      (extendsSt_updateNamespace _ p _ (fun ns => ⟨rfl, rfl, rfl, rfl⟩))
  case Nonlocal names =>
    exact ann_extends_finish st _ p _
      (extendsSt_updateNamespace _ p _ (fun ns => ⟨rfl, rfl, rfl, rfl⟩))
  case Name id ctx =>
    refine ann_extends_finish st _ p _ ?_
    cases hk : kindAt (annotate st (.Name id ctx) p) p with
    | none =>
        simp only [hk]
        exact extendsSt_refl _
    | some kk =>
        cases kk <;> simp only [hk]
        case module => exact extendsSt_refl _
        case function => exact extendsSt_refl _
        case annot => exact extendsSt_refl _
        case class_ =>
          cases ctx
          case load =>
            exact extendsSt_updateNamespace _ p _ (fun ns => ⟨rfl, rfl, rfl, rfl⟩)
          case store =>
            cases par with
            | none => exact extendsSt_refl _
            | some a =>
                cases a
                case AugAssign t v =>
                  exact extendsSt_updateNamespace _ p _ (fun ns => ⟨rfl, rfl, rfl, rfl⟩)
                all_goals exact extendsSt_refl _
          case del_ => exact extendsSt_refl _
  case Assign targets value =>
    exact ann_extends_finish st _ p _
      (extendsSt_trans (extendsSt_create_suite targets _ p _)
        (extendsSt_create_child value _ p _))
  case AugAssign target value =>
    exact ann_extends_finish st _ p _
      (extendsSt_trans (extendsSt_create_child target _ p _)
        (extendsSt_create_child value _ p _))
  case ExprStmt v =>
    exact ann_extends_finish st _ p _ (extendsSt_create_child v _ p _)
  case BinOp l r =>
    exact ann_extends_finish st _ p _
      (extendsSt_trans (extendsSt_create_child l _ p _)
        (extendsSt_create_child r _ p _))
  case TypeVar tname => exact ann_extends_finish st _ p _ (extendsSt_refl _)
  case Pass => exact ann_extends_finish st _ p _ (extendsSt_refl _)
  case ConstantInt n => exact ann_extends_finish st _ p _ (extendsSt_refl _)

theorem add_child_arena_length (st : BuildState) (p : Nat) (k : NSKind)
    (nm : String) (node : AST) :
    (add_child st p k nm node).1.arena.length = st.arena.length + 1 := by
  simp [add_child]

end PyCompactor

namespace PyCompactor

/-- After `create_functiondef_namespace`, the namespace created first (the
function namespace, or the interposed annotation namespace when a
type-parameter list is present) sits at the old arena length, records the
definition node as its introducing node and hangs under the enclosing
namespace. -/
theorem create_functiondef_first_scope (fname : String) (args : Arguments)
    (body dlist : List AST) (rets : Option AST) (tparams : List AST)
    (p : Nat) (st : BuildState) :
    ∃ k nm, arenaFieldsAt
        (create_functiondef_namespace (.FunctionDef fname args body dlist rets tparams) p st)
        st.arena.length =
      some (.FunctionDef fname args body dlist rets tparams, k, some p, nm) := by
  have hlenf : st.arena.length <
      (add_child st p .function fname (.FunctionDef fname args body dlist rets tparams)).1.arena.length := by
    rw [add_child_arena_length]; omega
  have hlena : st.arena.length <
      (add_child st p .annot fname (.FunctionDef fname args body dlist rets tparams)).1.arena.length := by
    rw [add_child_arena_length]; omega
  rw [create_functiondef_namespace.eq_def]
  cases rets with
  | none =>
      cases tparams with
      | nil =>
          refine ⟨.function, fname, ?_⟩
          have hch : extendsSt
              (add_child st p .function fname (.FunctionDef fname args body dlist none [])).1
              (create_suite dlist (some (.FunctionDef fname args body dlist none [])) p
                (create_suite body (some (.FunctionDef fname args body dlist none []))
                  (add_child st p .function fname (.FunctionDef fname args body dlist none [])).2
                  (assign_arguments_to_namespace args p
                    (add_child st p .function fname (.FunctionDef fname args body dlist none [])).2
                    (add_child st p .function fname (.FunctionDef fname args body dlist none [])).1))) :=
            extendsSt_trans (extendsSt_assign_arguments args p _ _)
              (extendsSt_trans (extendsSt_create_suite body _ _ _)
                (extendsSt_create_suite dlist _ p _))
          exact (hch.2.2 st.arena.length hlenf).trans (add_child_new_entry st p _ fname _)
      | cons t ts =>
          refine ⟨.annot, fname, ?_⟩
          have hch : extendsSt
              (add_child st p .annot fname (.FunctionDef fname args body dlist none (t :: ts))).1
              (create_suite dlist (some (.FunctionDef fname args body dlist none (t :: ts))) p
                (create_suite body (some (.FunctionDef fname args body dlist none (t :: ts)))
                  (add_child
                    (add_child st p .annot fname (.FunctionDef fname args body dlist none (t :: ts))).1
                    (add_child st p .annot fname (.FunctionDef fname args body dlist none (t :: ts))).2
                    .function fname (.FunctionDef fname args body dlist none (t :: ts))).2
                  (assign_arguments_to_namespace args p
                    (add_child
                      (add_child st p .annot fname (.FunctionDef fname args body dlist none (t :: ts))).1
                      (add_child st p .annot fname (.FunctionDef fname args body dlist none (t :: ts))).2
                      .function fname (.FunctionDef fname args body dlist none (t :: ts))).2
                    (create_suite (t :: ts)
                      (some (.FunctionDef fname args body dlist none (t :: ts)))
                      (add_child st p .annot fname (.FunctionDef fname args body dlist none (t :: ts))).2
                      (add_child
                        (add_child st p .annot fname (.FunctionDef fname args body dlist none (t :: ts))).1
                        (add_child st p .annot fname (.FunctionDef fname args body dlist none (t :: ts))).2
                        .function fname (.FunctionDef fname args body dlist none (t :: ts))).1)))) :=
            extendsSt_trans (extendsSt_add_child _ _ .function fname _)
              (extendsSt_trans (extendsSt_create_suite (t :: ts) _ _ _)
                (extendsSt_trans (extendsSt_assign_arguments args p _ _)
                  (extendsSt_trans (extendsSt_create_suite body _ _ _)
                    (extendsSt_create_suite dlist _ p _))))
          exact (hch.2.2 st.arena.length hlena).trans (add_child_new_entry st p _ fname _)
  | some r =>
      cases tparams with
      | nil =>
          refine ⟨.function, fname, ?_⟩
          have hch : extendsSt
              (add_child st p .function fname (.FunctionDef fname args body dlist (some r) [])).1
              (create_child_namespaces r (some (.FunctionDef fname args body dlist (some r) [])) p
                (create_suite dlist (some (.FunctionDef fname args body dlist (some r) [])) p
                  (create_suite body (some (.FunctionDef fname args body dlist (some r) []))
                    (add_child st p .function fname (.FunctionDef fname args body dlist (some r) [])).2
                    (assign_arguments_to_namespace args p
                      (add_child st p .function fname (.FunctionDef fname args body dlist (some r) [])).2
                      (add_child st p .function fname (.FunctionDef fname args body dlist (some r) [])).1)))) :=
            extendsSt_trans (extendsSt_assign_arguments args p _ _)
              (extendsSt_trans (extendsSt_create_suite body _ _ _)
                (extendsSt_trans (extendsSt_create_suite dlist _ p _)
                  (extendsSt_create_child r _ p _)))
          exact (hch.2.2 st.arena.length hlenf).trans (add_child_new_entry st p _ fname _)
      | cons t ts =>
          refine ⟨.annot, fname, ?_⟩
          have hch : extendsSt
              (add_child st p .annot fname (.FunctionDef fname args body dlist (some r) (t :: ts))).1
              (create_child_namespaces r (some (.FunctionDef fname args body dlist (some r) (t :: ts))) p
                (create_suite dlist (some (.FunctionDef fname args body dlist (some r) (t :: ts))) p
                  (create_suite body (some (.FunctionDef fname args body dlist (some r) (t :: ts)))
                    (add_child
                      (add_child st p .annot fname (.FunctionDef fname args body dlist (some r) (t :: ts))).1
                      (add_child st p .annot fname (.FunctionDef fname args body dlist (some r) (t :: ts))).2
                      .function fname (.FunctionDef fname args body dlist (some r) (t :: ts))).2
                    (assign_arguments_to_namespace args p
                      (add_child
                        (add_child st p .annot fname (.FunctionDef fname args body dlist (some r) (t :: ts))).1
                        (add_child st p .annot fname (.FunctionDef fname args body dlist (some r) (t :: ts))).2
                        .function fname (.FunctionDef fname args body dlist (some r) (t :: ts))).2
                      (create_suite (t :: ts)
                        (some (.FunctionDef fname args body dlist (some r) (t :: ts)))
                        (add_child st p .annot fname (.FunctionDef fname args body dlist (some r) (t :: ts))).2
                        (add_child
                          (add_child st p .annot fname (.FunctionDef fname args body dlist (some r) (t :: ts))).1
                          (add_child st p .annot fname (.FunctionDef fname args body dlist (some r) (t :: ts))).2
                          .function fname (.FunctionDef fname args body dlist (some r) (t :: ts))).1))))) :=
            extendsSt_trans (extendsSt_add_child _ _ .function fname _)
              (extendsSt_trans (extendsSt_create_suite (t :: ts) _ _ _)
                (extendsSt_trans (extendsSt_assign_arguments args p _ _)
                  (extendsSt_trans (extendsSt_create_suite body _ _ _)
                    (extendsSt_trans (extendsSt_create_suite dlist _ p _)
                      (extendsSt_create_child r _ p _)))))
          exact (hch.2.2 st.arena.length hlena).trans (add_child_new_entry st p _ fname _)

end PyCompactor

namespace PyCompactor

/-- Same statement for the `AsyncFunctionDef` arm of
`create_functiondef_namespace`. -/
theorem create_asyncfunctiondef_first_scope (fname : String) (args : Arguments)
    (body dlist : List AST) (rets : Option AST) (tparams : List AST)
    (p : Nat) (st : BuildState) :
    ∃ k nm, arenaFieldsAt
        (create_functiondef_namespace (.AsyncFunctionDef fname args body dlist rets tparams) p st)
        st.arena.length =
      some (.AsyncFunctionDef fname args body dlist rets tparams, k, some p, nm) := by
  have hlenf : st.arena.length <
      (add_child st p .function fname (.AsyncFunctionDef fname args body dlist rets tparams)).1.arena.length := by
    rw [add_child_arena_length]; omega
  have hlena : st.arena.length <
      (add_child st p .annot fname (.AsyncFunctionDef fname args body dlist rets tparams)).1.arena.length := by
    rw [add_child_arena_length]; omega
  rw [create_functiondef_namespace.eq_def]
  cases rets with
  | none =>
      cases tparams with
      | nil =>
          refine ⟨.function, fname, ?_⟩
          have hch : extendsSt
              (add_child st p .function fname (.AsyncFunctionDef fname args body dlist none [])).1
              (create_suite dlist (some (.AsyncFunctionDef fname args body dlist none [])) p
                (create_suite body (some (.AsyncFunctionDef fname args body dlist none []))
                  (add_child st p .function fname (.AsyncFunctionDef fname args body dlist none [])).2
                  (assign_arguments_to_namespace args p
                    (add_child st p .function fname (.AsyncFunctionDef fname args body dlist none [])).2
                    (add_child st p .function fname (.AsyncFunctionDef fname args body dlist none [])).1))) :=
            extendsSt_trans (extendsSt_assign_arguments args p _ _)
              (extendsSt_trans (extendsSt_create_suite body _ _ _)
                (extendsSt_create_suite dlist _ p _))
          exact (hch.2.2 st.arena.length hlenf).trans (add_child_new_entry st p _ fname _)
      | cons t ts =>
          refine ⟨.annot, fname, ?_⟩
          have hch : extendsSt
              (add_child st p .annot fname (.AsyncFunctionDef fname args body dlist none (t :: ts))).1
              (create_suite dlist (some (.AsyncFunctionDef fname args body dlist none (t :: ts))) p
                (create_suite body (some (.AsyncFunctionDef fname args body dlist none (t :: ts)))
                  (add_child
                    (add_child st p .annot fname (.AsyncFunctionDef fname args body dlist none (t :: ts))).1
                    (add_child st p .annot fname (.AsyncFunctionDef fname args body dlist none (t :: ts))).2
                    .function fname (.AsyncFunctionDef fname args body dlist none (t :: ts))).2
                  (assign_arguments_to_namespace args p
                    (add_child
                      (add_child st p .annot fname (.AsyncFunctionDef fname args body dlist none (t :: ts))).1
                      (add_child st p .annot fname (.AsyncFunctionDef fname args body dlist none (t :: ts))).2
                      .function fname (.AsyncFunctionDef fname args body dlist none (t :: ts))).2
                    (create_suite (t :: ts)
                      (some (.AsyncFunctionDef fname args body dlist none (t :: ts)))
                      (add_child st p .annot fname (.AsyncFunctionDef fname args body dlist none (t :: ts))).2
                      (add_child
                        (add_child st p .annot fname (.AsyncFunctionDef fname args body dlist none (t :: ts))).1
                        (add_child st p .annot fname (.AsyncFunctionDef fname args body dlist none (t :: ts))).2
                        .function fname (.AsyncFunctionDef fname args body dlist none (t :: ts))).1)))) :=
            extendsSt_trans (extendsSt_add_child _ _ .function fname _)
              (extendsSt_trans (extendsSt_create_suite (t :: ts) _ _ _)
                (extendsSt_trans (extendsSt_assign_arguments args p _ _)
                  (extendsSt_trans (extendsSt_create_suite body _ _ _)
                    (extendsSt_create_suite dlist _ p _))))
          exact (hch.2.2 st.arena.length hlena).trans (add_child_new_entry st p _ fname _)
  | some r =>
      cases tparams with
      | nil =>
          refine ⟨.function, fname, ?_⟩
          have hch : extendsSt
              (add_child st p .function fname (.AsyncFunctionDef fname args body dlist (some r) [])).1
              (create_child_namespaces r (some (.AsyncFunctionDef fname args body dlist (some r) [])) p
                (create_suite dlist (some (.AsyncFunctionDef fname args body dlist (some r) [])) p
                  (create_suite body (some (.AsyncFunctionDef fname args body dlist (some r) []))
                    (add_child st p .function fname (.AsyncFunctionDef fname args body dlist (some r) [])).2
                    (assign_arguments_to_namespace args p
                      (add_child st p .function fname (.AsyncFunctionDef fname args body dlist (some r) [])).2
                      (add_child st p .function fname (.AsyncFunctionDef fname args body dlist (some r) [])).1)))) :=
            extendsSt_trans (extendsSt_assign_arguments args p _ _)
              (extendsSt_trans (extendsSt_create_suite body _ _ _)
                (extendsSt_trans (extendsSt_create_suite dlist _ p _)
                  (extendsSt_create_child r _ p _)))
          exact (hch.2.2 st.arena.length hlenf).trans (add_child_new_entry st p _ fname _)
      | cons t ts =>
          refine ⟨.annot, fname, ?_⟩
          have hch : extendsSt
              (add_child st p .annot fname (.AsyncFunctionDef fname args body dlist (some r) (t :: ts))).1
              (create_child_namespaces r (some (.AsyncFunctionDef fname args body dlist (some r) (t :: ts))) p
                (create_suite dlist (some (.AsyncFunctionDef fname args body dlist (some r) (t :: ts))) p
                  (create_suite body (some (.AsyncFunctionDef fname args body dlist (some r) (t :: ts)))
                    (add_child
                      (add_child st p .annot fname (.AsyncFunctionDef fname args body dlist (some r) (t :: ts))).1
                      (add_child st p .annot fname (.AsyncFunctionDef fname args body dlist (some r) (t :: ts))).2
                      .function fname (.AsyncFunctionDef fname args body dlist (some r) (t :: ts))).2
                    (assign_arguments_to_namespace args p
                      (add_child
                        (add_child st p .annot fname (.AsyncFunctionDef fname args body dlist (some r) (t :: ts))).1
                        (add_child st p .annot fname (.AsyncFunctionDef fname args body dlist (some r) (t :: ts))).2
                        .function fname (.AsyncFunctionDef fname args body dlist (some r) (t :: ts))).2
                      (create_suite (t :: ts)
                        (some (.AsyncFunctionDef fname args body dlist (some r) (t :: ts)))
                        (add_child st p .annot fname (.AsyncFunctionDef fname args body dlist (some r) (t :: ts))).2
                        (add_child
                          (add_child st p .annot fname (.AsyncFunctionDef fname args body dlist (some r) (t :: ts))).1
                          (add_child st p .annot fname (.AsyncFunctionDef fname args body dlist (some r) (t :: ts))).2
                          .function fname (.AsyncFunctionDef fname args body dlist (some r) (t :: ts))).1))))) :=
            extendsSt_trans (extendsSt_add_child _ _ .function fname _)
              (extendsSt_trans (extendsSt_create_suite (t :: ts) _ _ _)
                (extendsSt_trans (extendsSt_assign_arguments args p _ _)
                  (extendsSt_trans (extendsSt_create_suite body _ _ _)
                    (extendsSt_trans (extendsSt_create_suite dlist _ p _)
                      (extendsSt_create_child r _ p _)))))
          exact (hch.2.2 st.arena.length hlena).trans (add_child_new_entry st p _ fname _)

/-- After `create_lambda_namespace`, the lambda's function namespace sits at
the old arena length with the lambda node and the enclosing parent link. -/
theorem create_lambda_first_scope (args : Arguments) (lbody : AST)
    (p : Nat) (st : BuildState) :
    arenaFieldsAt (create_lambda_namespace (.Lambda args lbody) p st) st.arena.length =
      some (.Lambda args lbody, .function, some p, "Lambda") := by
  have hlen : st.arena.length <
      (add_child st p .function "Lambda" (.Lambda args lbody)).1.arena.length := by
    rw [add_child_arena_length]; omega
  rw [create_lambda_namespace.eq_def]
  have hch : extendsSt (add_child st p .function "Lambda" (.Lambda args lbody)).1
      (create_child_namespaces lbody (some (.Lambda args lbody))
        (add_child st p .function "Lambda" (.Lambda args lbody)).2
        (assign_arguments_to_namespace args p
          (add_child st p .function "Lambda" (.Lambda args lbody)).2
          (add_child st p .function "Lambda" (.Lambda args lbody)).1)) :=
    extendsSt_trans (extendsSt_assign_arguments args p _ _)
      (extendsSt_create_child lbody _ _ _)
  exact (hch.2.2 st.arena.length hlen).trans (add_child_new_entry st p _ "Lambda" _)

/-- After `create_class_namespace`, the namespace created first (the class
namespace, or the interposed annotation namespace when a type-parameter
list is present) sits at the old arena length with the class node and the
enclosing parent link. -/
theorem create_class_first_scope (cname : String)
    (bases kws body dlist tparams : List AST) (p : Nat) (st : BuildState) :
    ∃ k nm, arenaFieldsAt
        (create_class_namespace (.ClassDef cname bases kws body dlist tparams) p st)
        st.arena.length =
      some (.ClassDef cname bases kws body dlist tparams, k, some p, nm) := by
  have hlenc : st.arena.length <
      (add_child st p .class_ cname (.ClassDef cname bases kws body dlist tparams)).1.arena.length := by
    rw [add_child_arena_length]; omega
  have hlena : st.arena.length <
      (add_child st p .annot cname (.ClassDef cname bases kws body dlist tparams)).1.arena.length := by
    rw [add_child_arena_length]; omega
  rw [create_class_namespace.eq_def]
  cases tparams with
  | nil =>
      refine ⟨.class_, cname, ?_⟩
      have hch : extendsSt
          (add_child st p .class_ cname (.ClassDef cname bases kws body dlist [])).1
          (create_suite dlist (some (.ClassDef cname bases kws body dlist [])) p
            (create_suite body (some (.ClassDef cname bases kws body dlist []))
              (add_child st p .class_ cname (.ClassDef cname bases kws body dlist [])).2
              (create_suite kws (some (.ClassDef cname bases kws body dlist [])) p
                (create_suite bases (some (.ClassDef cname bases kws body dlist [])) p
                  (add_child st p .class_ cname (.ClassDef cname bases kws body dlist [])).1)))) :=
        extendsSt_trans (extendsSt_create_suite bases _ p _)
          (extendsSt_trans (extendsSt_create_suite kws _ p _)
            (extendsSt_trans (extendsSt_create_suite body _ _ _)
              (extendsSt_create_suite dlist _ p _)))
      exact (hch.2.2 st.arena.length hlenc).trans (add_child_new_entry st p _ cname _)
  | cons t ts =>
      refine ⟨.annot, cname, ?_⟩
      have hch : extendsSt
          (add_child st p .annot cname (.ClassDef cname bases kws body dlist (t :: ts))).1
          (create_suite dlist (some (.ClassDef cname bases kws body dlist (t :: ts))) p
            (create_suite body (some (.ClassDef cname bases kws body dlist (t :: ts)))
              (add_child
                (add_child st p .annot cname (.ClassDef cname bases kws body dlist (t :: ts))).1
                (add_child st p .annot cname (.ClassDef cname bases kws body dlist (t :: ts))).2
                .class_ cname (.ClassDef cname bases kws body dlist (t :: ts))).2
              (create_suite kws (some (.ClassDef cname bases kws body dlist (t :: ts))) p
                (create_suite bases (some (.ClassDef cname bases kws body dlist (t :: ts))) p
                  (create_suite (t :: ts) (some (.ClassDef cname bases kws body dlist (t :: ts)))
                    (add_child st p .annot cname (.ClassDef cname bases kws body dlist (t :: ts))).2
                    (add_child
                      (add_child st p .annot cname (.ClassDef cname bases kws body dlist (t :: ts))).1
                      (add_child st p .annot cname (.ClassDef cname bases kws body dlist (t :: ts))).2
                      .class_ cname (.ClassDef cname bases kws body dlist (t :: ts))).1))))) :=
        extendsSt_trans (extendsSt_add_child _ _ .class_ cname _)
          (extendsSt_trans (extendsSt_create_suite (t :: ts) _ _ _)
            (extendsSt_trans (extendsSt_create_suite bases _ p _)
              (extendsSt_trans (extendsSt_create_suite kws _ p _)
                (extendsSt_trans (extendsSt_create_suite body _ _ _)
                  (extendsSt_create_suite dlist _ p _)))))
      exact (hch.2.2 st.arena.length hlena).trans (add_child_new_entry st p _ cname _)

/-- After `create_comprehension_namespace` on a generator expression, the
comprehension's function namespace sits at the old arena length. -/
theorem create_genexp_first_scope (elt : AST) (gens : List Comp)
    (p : Nat) (st : BuildState) :
    arenaFieldsAt (create_comprehension_namespace (.GeneratorExp elt gens) p st)
        st.arena.length =
      some (.GeneratorExp elt gens, .function, some p, "GeneratorExp") := by
  have hlen : st.arena.length <
      (add_child st p .function "GeneratorExp" (.GeneratorExp elt gens)).1.arena.length := by
    rw [add_child_arena_length]; omega
  rw [create_comprehension_namespace.eq_def]
  have hch : extendsSt (add_child st p .function "GeneratorExp" (.GeneratorExp elt gens)).1
      (process_generators gens
        (add_child st p .function "GeneratorExp" (.GeneratorExp elt gens)).2 p
        (create_child_namespaces elt (some (.GeneratorExp elt gens))
          (add_child st p .function "GeneratorExp" (.GeneratorExp elt gens)).2
          (add_child st p .function "GeneratorExp" (.GeneratorExp elt gens)).1)) :=
    extendsSt_trans (extendsSt_create_child elt _ _ _)
      (extendsSt_process_generators gens _ p _)
  exact (hch.2.2 st.arena.length hlen).trans (add_child_new_entry st p _ "GeneratorExp" _)

/-- After `create_comprehension_namespace` on a set comprehension, the
comprehension's function namespace sits at the old arena length. -/
theorem create_setcomp_first_scope (elt : AST) (gens : List Comp)
    (p : Nat) (st : BuildState) :
    arenaFieldsAt (create_comprehension_namespace (.SetComp elt gens) p st)
        st.arena.length =
      some (.SetComp elt gens, .function, some p, "SetComp") := by
  have hlen : st.arena.length <
      (add_child st p .function "SetComp" (.SetComp elt gens)).1.arena.length := by
    rw [add_child_arena_length]; omega
  rw [create_comprehension_namespace.eq_def]
  have hch : extendsSt (add_child st p .function "SetComp" (.SetComp elt gens)).1
      (process_generators gens
        (add_child st p .function "SetComp" (.SetComp elt gens)).2 p
        (create_child_namespaces elt (some (.SetComp elt gens))
          (add_child st p .function "SetComp" (.SetComp elt gens)).2
          (add_child st p .function "SetComp" (.SetComp elt gens)).1)) :=
    extendsSt_trans (extendsSt_create_child elt _ _ _)
      (extendsSt_process_generators gens _ p _)
  exact (hch.2.2 st.arena.length hlen).trans (add_child_new_entry st p _ "SetComp" _)

/-- After `create_comprehension_namespace` on a list comprehension, the
comprehension's function namespace sits at the old arena length. -/
theorem create_listcomp_first_scope (elt : AST) (gens : List Comp)
    (p : Nat) (st : BuildState) :
    arenaFieldsAt (create_comprehension_namespace (.ListComp elt gens) p st)
        st.arena.length =
      some (.ListComp elt gens, .function, some p, "ListComp") := by
  have hlen : st.arena.length <
      (add_child st p .function "ListComp" (.ListComp elt gens)).1.arena.length := by
    rw [add_child_arena_length]; omega
  rw [create_comprehension_namespace.eq_def]
  have hch : extendsSt (add_child st p .function "ListComp" (.ListComp elt gens)).1
      (process_generators gens
        (add_child st p .function "ListComp" (.ListComp elt gens)).2 p
        (create_child_namespaces elt (some (.ListComp elt gens))
          (add_child st p .function "ListComp" (.ListComp elt gens)).2
          (add_child st p .function "ListComp" (.ListComp elt gens)).1)) :=
    extendsSt_trans (extendsSt_create_child elt _ _ _)
      (extendsSt_process_generators gens _ p _)
  exact (hch.2.2 st.arena.length hlen).trans (add_child_new_entry st p _ "ListComp" _)

/-- After `create_comprehension_namespace` on a dict comprehension, the
comprehension's function namespace sits at the old arena length. -/
theorem create_dictcomp_first_scope (k v : AST) (gens : List Comp)
    (p : Nat) (st : BuildState) :
    arenaFieldsAt (create_comprehension_namespace (.DictComp k v gens) p st)
        st.arena.length =
      some (.DictComp k v gens, .function, some p, "DictComp") := by
  have hlen : st.arena.length <
      (add_child st p .function "DictComp" (.DictComp k v gens)).1.arena.length := by
    rw [add_child_arena_length]; omega
  rw [create_comprehension_namespace.eq_def]
  have hch : extendsSt (add_child st p .function "DictComp" (.DictComp k v gens)).1
      (process_generators gens
        (add_child st p .function "DictComp" (.DictComp k v gens)).2 p
        (create_child_namespaces v (some (.DictComp k v gens))
          (add_child st p .function "DictComp" (.DictComp k v gens)).2
          (create_child_namespaces k (some (.DictComp k v gens))
            (add_child st p .function "DictComp" (.DictComp k v gens)).2
            (add_child st p .function "DictComp" (.DictComp k v gens)).1))) :=
    extendsSt_trans (extendsSt_create_child k _ _ _)
      (extendsSt_trans (extendsSt_create_child v _ _ _)
        (extendsSt_process_generators gens _ p _))
  exact (hch.2.2 st.arena.length hlen).trans (add_child_new_entry st p _ "DictComp" _)

/-- The node kinds for which `create_child_namespaces` dispatches to a
handler that creates a new namespace: function and class definitions,
lambdas and the four comprehension forms (`resolve_names`' scope-introducing
constructs). -/
def introduces_scope : AST → Bool
  | .FunctionDef _ _ _ _ _ _ => true
  | .AsyncFunctionDef _ _ _ _ _ _ => true
  | .Lambda _ _ => true
  | .ClassDef _ _ _ _ _ _ => true
  | .GeneratorExp _ _ => true
  | .SetComp _ _ => true
  | .ListComp _ _ => true
  | .DictComp _ _ _ => true
  | _ => false

end PyCompactor

namespace PyCompactor

/-- A one-namespace module state to instantiate the general scope-ownership
theorem. -/
def moduleStEx : BuildState :=
  { arena := [{ kind := .module, nsName := "", nsNode := .Module [], parentIdx := none }] }

/-- C10 (general form): for every scope-introducing node — function or async
function definition, lambda, class definition, or any of the four
comprehension forms — dispatched by `create_child_namespaces` against an
enclosing namespace `p`, the owning-scope annotation the builder writes for
the node itself is the enclosing namespace `p`; the namespace the handler
creates first is a fresh arena entry recording that node as its introducing
node with its parent link pointing at `p`; and that fresh index differs
from `p`, so the node's owning scope is never the scope it introduces. -/
theorem scope_introducing_node_owned_by_enclosing (node : AST)
    (par : Option AST) (p : Nat) (st : BuildState)
    (hin : introduces_scope node = true) (hp : p < st.arena.length) :
    (create_child_namespaces node par p st).ann.get? st.ann.length = some (node, p) ∧
    (∃ k nm, arenaFieldsAt (create_child_namespaces node par p st) st.arena.length =
        some (node, k, some p, nm)) ∧
    p ≠ st.arena.length := by
  refine ⟨create_child_first_ann node par p st, ?_, Nat.ne_of_lt hp⟩
  cases node with
  | FunctionDef fname args body dlist rets tparams =>
      rw [create_child_namespaces.eq_def]
      exact create_functiondef_first_scope fname args body dlist rets tparams p _
  | AsyncFunctionDef fname args body dlist rets tparams =>
      rw [create_child_namespaces.eq_def]
      exact create_asyncfunctiondef_first_scope fname args body dlist rets tparams p _
  | Lambda args lbody =>
      rw [create_child_namespaces.eq_def]
      exact ⟨.function, "Lambda", create_lambda_first_scope args lbody p _⟩
  | ClassDef cname bases kws body dlist tparams =>
      rw [create_child_namespaces.eq_def]
      exact create_class_first_scope cname bases kws body dlist tparams p _
  | GeneratorExp elt gens =>
      rw [create_child_namespaces.eq_def]
      exact ⟨.function, "GeneratorExp", create_genexp_first_scope elt gens p _⟩
  | SetComp elt gens =>
      rw [create_child_namespaces.eq_def]
      exact ⟨.function, "SetComp", create_setcomp_first_scope elt gens p _⟩
  | ListComp elt gens =>
      rw [create_child_namespaces.eq_def]
      exact ⟨.function, "ListComp", create_listcomp_first_scope elt gens p _⟩
  | DictComp k v gens =>
      rw [create_child_namespaces.eq_def]
      exact ⟨.function, "DictComp", create_dictcomp_first_scope k v gens p _⟩
  | Module body => simp [introduces_scope] at hin
  | Global names => simp [introduces_scope] at hin
  | Nonlocal names => simp [introduces_scope] at hin
  | Name id ctx => simp [introduces_scope] at hin
  | Assign targets value => simp [introduces_scope] at hin
  | AugAssign target value => simp [introduces_scope] at hin
  | ExprStmt value => simp [introduces_scope] at hin
  | BinOp left right => simp [introduces_scope] at hin
  | TypeVar tname => simp [introduces_scope] at hin
  | Pass => simp [introduces_scope] at hin
  | ConstantInt n => simp [introduces_scope] at hin

/-- The general scope-ownership theorem applied to a lambda under a
one-namespace module state. -/
theorem scope_introducing_node_owned_by_enclosing_witness :
    introduces_scope lambdaEx = true ∧ 0 < moduleStEx.arena.length ∧
    ((create_child_namespaces lambdaEx none 0 moduleStEx).ann.get? moduleStEx.ann.length =
        some (lambdaEx, 0) ∧
      (∃ k nm, arenaFieldsAt (create_child_namespaces lambdaEx none 0 moduleStEx)
          moduleStEx.arena.length = some (lambdaEx, k, some 0, nm)) ∧
      0 ≠ moduleStEx.arena.length) :=
  ⟨by rfl, by decide,
   scope_introducing_node_owned_by_enclosing lambdaEx none 0 moduleStEx
     (by rfl) (by decide)⟩

end PyCompactor
